/-
Verification of the data-enrichment pipeline and analytical aggregation layer
of the `mis` dashboard repository (src/pipeline.py, src/components/analytics.py,
src/views/risk.py, src/components/data.py, src/data/region_map.py).

The Python code is shallowly embedded: pandas DataFrames become lists of
structures, pandas Timestamps become a calendar-date structure compared
lexicographically, numeric observation values become rationals, and the
(float) standard deviation becomes the real square root of the rational
variance.  Sorting with `DataFrame.sort_values` on several columns uses
numpy's `lexsort`, which is a stable sort; every stable sort produces the
same output list, so it is embedded as insertion sort by the sort key.
-/
import Mathlib

/-! ## Calendar dates (pandas Timestamps at day precision) -/

/-- A calendar date `(year, month, day)`, the payload of a `pd.Timestamp`
as used by the pipeline (all timestamps come from `%Y-%m-%d` strings). -/
structure Date where
  year : Nat
  month : Nat
  day : Nat
deriving DecidableEq, Repr

/-- Timestamp comparison: lexicographic on (year, month, day). -/
def Date.ltb (a b : Date) : Bool :=
  if a.year ≠ b.year then a.year < b.year
  else if a.month ≠ b.month then a.month < b.month
  else a.day < b.day

/-- `a ≤ b` on timestamps, as a Boolean. -/
def Date.leb (a b : Date) : Bool := !(Date.ltb b a)

theorem Date.ltb_iff {ay am ad bY bm bd : Nat} :
    Date.ltb ⟨ay, am, ad⟩ ⟨bY, bm, bd⟩ = true ↔
      ay < bY ∨ (ay = bY ∧ (am < bm ∨ (am = bm ∧ ad < bd))) := by
  simp only [Date.ltb]
  split_ifs <;> simp_all <;> omega

theorem Date.ltb_irrefl (a : Date) : Date.ltb a a = false := by
  rcases a with ⟨ay, am, ad⟩
  rw [Bool.eq_false_iff, Ne, Date.ltb_iff]; omega

theorem Date.ltb_asymm {a b : Date} (h : Date.ltb a b = true) :
    Date.ltb b a = false := by
  rcases a with ⟨ay, am, ad⟩; rcases b with ⟨bY, bm, bd⟩
  rw [Date.ltb_iff] at h
  rw [Bool.eq_false_iff, Ne, Date.ltb_iff]; omega

theorem Date.ltb_trans {a b c : Date} (hab : Date.ltb a b = true)
    (hbc : Date.ltb b c = true) : Date.ltb a c = true := by
  rcases a with ⟨ay, am, ad⟩; rcases b with ⟨bY, bm, bd⟩; rcases c with ⟨cy, cm, cd⟩
  rw [Date.ltb_iff] at hab hbc ⊢; omega

theorem Date.eq_of_not_ltb {a b : Date} (h1 : Date.ltb a b = false)
    (h2 : Date.ltb b a = false) : a = b := by
  rcases a with ⟨ay, am, ad⟩; rcases b with ⟨bY, bm, bd⟩
  rw [Bool.eq_false_iff, Ne, Date.ltb_iff] at h1 h2
  simp only [Date.mk.injEq]
  omega

/-! ## Era classification (`classify_era`, src/pipeline.py) -/

/-- `classify_era`: the fixed piecewise rule tagging each timestamp with a
historical-era label, transcribed from `src/pipeline.py`. -/
def classify_era (timestamp : Date) : String :=
  if Date.ltb timestamp ⟨2007, 7, 1⟩ then "Pre-GFC"
  else if Date.ltb timestamp ⟨2014, 1, 1⟩ then "Post-GFC Recovery"
  else if Date.ltb timestamp ⟨2020, 1, 1⟩ then "Commodity Reset"
  else if Date.ltb timestamp ⟨2022, 2, 1⟩ then "Pandemic Shock"
  else "Geopolitical Reordering"

/-- The five era labels emitted by `classify_era`, in chronological order;
the spec's §4.3 table lists the same five eras (under display names
"Pre-shock baseline", "Post-crisis recovery", "Commodity reset",
"Pandemic shock", "Geopolitical reordering") with identical boundaries. -/
def eraLabels : List String :=
  ["Pre-GFC", "Post-GFC Recovery", "Commodity Reset", "Pandemic Shock",
   "Geopolitical Reordering"]

/-- The half-open interval of the `i`-th era from the §4.3 table:
era 0 is `(-∞, 2007-07-01)`, era 1 is `[2007-07-01, 2014-01-01)`, …,
era 4 is `[2022-02-01, ∞)`. -/
def inEraInterval (i : Nat) (t : Date) : Bool :=
  match i with
  | 0 => Date.ltb t ⟨2007, 7, 1⟩
  | 1 => Date.leb ⟨2007, 7, 1⟩ t && Date.ltb t ⟨2014, 1, 1⟩
  | 2 => Date.leb ⟨2014, 1, 1⟩ t && Date.ltb t ⟨2020, 1, 1⟩
  | 3 => Date.leb ⟨2020, 1, 1⟩ t && Date.ltb t ⟨2022, 2, 1⟩
  | _ => Date.leb ⟨2022, 2, 1⟩ t

/-- The `k`-th month of the validation range, counting from 1990-01. -/
def monthDate (k : Nat) : Date := ⟨1990 + k / 12, k % 12 + 1, 1⟩

/-- C1: Era classification is total over 1990-01 .. 2030-01 at monthly
granularity — each of the 481 months lies in exactly one of the five
half-open intervals and `classify_era` returns that interval's label —
and the four boundary dates each open the era the §4.3 table assigns them
(2007-06-01 still in the first era, 2007-07-01 opening the second, etc.). -/
theorem era_classification_total_and_boundaries :
    (∀ k, k < 481 →
      (List.range 5).countP (fun i => inEraInterval i (monthDate k)) = 1 ∧
      ∀ i, i < 5 → inEraInterval i (monthDate k) = true →
        classify_era (monthDate k) = eraLabels.getD i "") ∧
    classify_era ⟨2007, 6, 1⟩ = "Pre-GFC" ∧
    classify_era ⟨2007, 7, 1⟩ = "Post-GFC Recovery" ∧
    classify_era ⟨2014, 1, 1⟩ = "Commodity Reset" ∧
    classify_era ⟨2020, 1, 1⟩ = "Pandemic Shock" ∧
    classify_era ⟨2022, 2, 1⟩ = "Geopolitical Reordering" := by
  set_option maxRecDepth 100000 in decide

/-! ## Python strings as lists of code points -/

/-- A Python string value, as a list of character code points.  Working at
code-point level makes `str.strip` / `str.upper` explicit functions. -/
abbrev PyStr : Type := List Nat

/-- Code points of a Lean string literal, used to transcribe the string
constants of the source. -/
def str2c (s : String) : PyStr := s.data.map Char.toNat

/-- Python's `str.strip` whitespace set (ASCII part): space, \t, \n, \v, \f, \r. -/
def pyIsSpace (c : Nat) : Bool := c = 32 || (9 ≤ c && c ≤ 13)

/-- `str.upper` on one code point (ASCII): lowercase letters a–z map to A–Z. -/
def pyToUpperChar (c : Nat) : Nat := if 97 ≤ c ∧ c ≤ 122 then c - 32 else c

/-- Leading-whitespace removal (first half of `str.strip`). -/
def pyStripLeft (s : PyStr) : PyStr := List.dropWhile pyIsSpace s

/-- Trailing-whitespace removal (second half of `str.strip`). -/
def pyStripRight (s : PyStr) : PyStr :=
  (List.dropWhile pyIsSpace (List.reverse s)).reverse

/-- Python `str.strip()`. -/
def pyStrip (s : PyStr) : PyStr := pyStripRight (pyStripLeft s)

/-- Python `str.upper()` (ASCII fragment; the data's codes/labels are ASCII). -/
def pyUpper (s : PyStr) : PyStr := List.map pyToUpperChar s

/-- `.str.strip().str.upper()` applied to `REF_AREA` values. -/
def normArea (s : PyStr) : PyStr := pyUpper (pyStrip s)

/-- Lexicographic `<` on Python strings (numpy/pandas string ordering,
used by `sort_values` on the `REF_AREA` column). -/
def pyStrLtb : PyStr → PyStr → Bool
  | [], [] => false
  | [], _ :: _ => true
  | _ :: _, [] => false
  | a :: as, b :: bs => if a < b then true else if b < a then false else pyStrLtb as bs

theorem pyStrLtb_irrefl : ∀ s : PyStr, pyStrLtb s s = false
  | [] => rfl
  | a :: as => by simp [pyStrLtb, pyStrLtb_irrefl as]

theorem pyStrLtb_asymm : ∀ {s t : PyStr}, pyStrLtb s t = true → pyStrLtb t s = false
  | [], [], h => by simp [pyStrLtb] at h
  | [], _ :: _, _ => rfl
  | _ :: _, [], h => by simp [pyStrLtb] at h
  | a :: as, b :: bs, h => by
      simp only [pyStrLtb] at h ⊢
      split_ifs at h ⊢ <;>
        first
        | rfl
        | omega
        | exact pyStrLtb_asymm h
        | simp_all

theorem pyStrLtb_trans : ∀ {s t u : PyStr},
    pyStrLtb s t = true → pyStrLtb t u = true → pyStrLtb s u = true
  | [], _, _ :: _, _, _ => rfl
  | [], _ :: _, [], _, h2 => by simp [pyStrLtb] at h2
  | [], [], [], h1, _ => by simp [pyStrLtb] at h1
  | _ :: _, [], _, h1, _ => by simp [pyStrLtb] at h1
  | _ :: _, _ :: _, [], _, h2 => by simp [pyStrLtb] at h2
  | a :: as, b :: bs, c :: cs, h1, h2 => by
      simp only [pyStrLtb] at h1 h2 ⊢
      split_ifs at h1 h2 ⊢ <;>
        first
        | rfl
        | omega
        | exact pyStrLtb_trans h1 h2
        | simp_all

theorem pyStrLtb_eq_of_not : ∀ {s t : PyStr},
    pyStrLtb s t = false → pyStrLtb t s = false → s = t
  | [], [], _, _ => rfl
  | [], _ :: _, h1, _ => by simp [pyStrLtb] at h1
  | _ :: _, [], _, h2 => by simp [pyStrLtb] at h2
  | a :: as, b :: bs, h1, h2 => by
      simp only [pyStrLtb] at h1 h2
      split_ifs at h1 h2 <;>
        first
        | omega
        | (have hab : a = b := by omega
           have ht := pyStrLtb_eq_of_not h1 h2
           simp [hab, ht])
        | simp_all

theorem Date.leb_trans {a b c : Date} (h1 : Date.leb a b = true)
    (h2 : Date.leb b c = true) : Date.leb a c = true := by
  simp only [Date.leb, Bool.not_eq_true'] at h1 h2 ⊢
  rcases a with ⟨ay, am, ad⟩; rcases b with ⟨bY, bm, bd⟩; rcases c with ⟨cy, cm, cd⟩
  rw [Bool.eq_false_iff, Ne, Date.ltb_iff] at h1 h2 ⊢
  omega

/-! ## The (REF_AREA, TIME_PERIOD) sort key -/

/-- `≤` on `(REF_AREA, TIME_PERIOD)` sort keys: lexicographic, string first
(the column order of `sort_values(["REF_AREA", "TIME_PERIOD"])`). -/
def pkeyLeb (a b : PyStr × Date) : Bool :=
  if pyStrLtb a.1 b.1 then true
  else if pyStrLtb b.1 a.1 then false
  else Date.leb a.2 b.2

theorem pkeyLeb_refl (a : PyStr × Date) : pkeyLeb a a = true := by
  simp [pkeyLeb, pyStrLtb_irrefl, Date.leb, Date.ltb_irrefl]

theorem pkeyLeb_total (a b : PyStr × Date) :
    pkeyLeb a b = true ∨ pkeyLeb b a = true := by
  unfold pkeyLeb
  by_cases h1 : pyStrLtb a.1 b.1 = true
  · left; simp [h1]
  · rw [Bool.not_eq_true] at h1
    by_cases h2 : pyStrLtb b.1 a.1 = true
    · right; simp [h2]
    · rw [Bool.not_eq_true] at h2
      by_cases hd : Date.ltb b.2 a.2 = true
      · right
        simp [h1, h2, Date.leb, Date.ltb_asymm hd]
      · left
        rw [Bool.not_eq_true] at hd
        simp [h1, h2, Date.leb, hd]

theorem pkeyLeb_trans {a b c : PyStr × Date} (h1 : pkeyLeb a b = true)
    (h2 : pkeyLeb b c = true) : pkeyLeb a c = true := by
  unfold pkeyLeb at h1 h2 ⊢
  by_cases s1 : pyStrLtb a.1 b.1 = true
  · by_cases s2 : pyStrLtb b.1 c.1 = true
    · simp [pyStrLtb_trans s1 s2]
    · rw [Bool.not_eq_true] at s2
      by_cases s3 : pyStrLtb c.1 b.1 = true
      · simp [s2, s3] at h2
      · rw [Bool.not_eq_true] at s3
        have hbc := pyStrLtb_eq_of_not s2 s3
        rw [← hbc]
        simp [s1]
  · rw [Bool.not_eq_true] at s1
    by_cases s1' : pyStrLtb b.1 a.1 = true
    · simp [s1, s1'] at h1
    · rw [Bool.not_eq_true] at s1'
      have hab := pyStrLtb_eq_of_not s1 s1'
      simp only [s1, s1', Bool.false_eq_true, if_false] at h1
      rw [hab]
      by_cases s2 : pyStrLtb b.1 c.1 = true
      · simp [s2]
      · rw [Bool.not_eq_true] at s2
        by_cases s3 : pyStrLtb c.1 b.1 = true
        · simp [s2, s3] at h2
        · rw [Bool.not_eq_true] at s3
          have hbc := pyStrLtb_eq_of_not s2 s3
          simp only [s2, s3, Bool.false_eq_true, if_false] at h2
          simp only [hbc] at h1 ⊢
          simp only [pyStrLtb_irrefl, Bool.false_eq_true, if_false]
          exact Date.leb_trans h1 h2

theorem pkeyLeb_antisymm {a b : PyStr × Date} (h1 : pkeyLeb a b = true)
    (h2 : pkeyLeb b a = true) : a = b := by
  unfold pkeyLeb at h1 h2
  by_cases s1 : pyStrLtb a.1 b.1 = true
  · simp [pyStrLtb_asymm s1, s1] at h2
  · rw [Bool.not_eq_true] at s1
    by_cases s2 : pyStrLtb b.1 a.1 = true
    · simp [s1, s2] at h1
    · rw [Bool.not_eq_true] at s2
      have hstr := pyStrLtb_eq_of_not s1 s2
      simp only [s1, s2, Bool.false_eq_true, if_false] at h1 h2
      simp only [Date.leb, Bool.not_eq_true'] at h1 h2
      have hdate := Date.eq_of_not_ltb h2 h1
      exact Prod.ext hstr hdate

/-! ## Stable sort by key, and `drop_duplicates(keep="last")` -/

section KeySort

variable {α κ : Type} [DecidableEq κ] (key : α → κ) (kle : κ → κ → Bool)

/-- The row ordering induced by a sort key (`sort_values` comparison). -/
def keyRel (a b : α) : Prop := kle (key a) (key b) = true

instance keyRelDecidable : DecidableRel (keyRel key kle) := fun a b =>
  instDecidableEqBool (kle (key a) (key b)) true

/-- `DataFrame.sort_values` by the key columns.  Multi-column `sort_values`
sorts with numpy's stable `lexsort`; any stable sort yields the same list,
embedded here as insertion sort. -/
def sortValues (l : List α) : List α := l.insertionSort (keyRel key kle)

/-- `DataFrame.drop_duplicates(subset=key, keep="last")`: keep a row iff no
later row shares its key. -/
def dedupLast : List α → List α
  | [] => []
  | x :: xs =>
      if xs.any (fun y => decide (key y = key x)) then dedupLast xs
      else x :: dedupLast xs

/-- Inserting one row keeps the filtered key class intact: the inserted row
lands in front of its own key class (all rows it skips have strictly
smaller keys). -/
theorem filter_orderedInsert
    (htot : ∀ a b, kle a b = true ∨ kle b a = true) (k : κ) (x : α) :
    ∀ l : List α,
      (l.orderedInsert (keyRel key kle) x).filter (fun a => decide (key a = k)) =
        if key x = k then
          x :: l.filter (fun a => decide (key a = k))
        else l.filter (fun a => decide (key a = k))
  | [] => by
      simp only [List.orderedInsert]
      by_cases h : key x = k <;> simp [List.filter_cons, h]
  | b :: bs => by
      simp only [List.orderedInsert]
      by_cases hr : keyRel key kle x b
      · rw [if_pos hr]
        by_cases h : key x = k <;> simp [List.filter_cons, h]
      · rw [if_neg hr]
        have hbx : key b ≠ key x := by
          intro he
          rcases htot (key x) (key b) with h1 | h1
          · exact hr h1
          · apply hr
            show kle (key x) (key b) = true
            rw [he] at h1 ⊢
            exact h1
        have ih := filter_orderedInsert htot k x bs
        by_cases h : key x = k
        · have hbk : ¬(key b = k) := fun hc => hbx (hc.trans h.symm)
          simp [List.filter_cons, hbk, ih, h]
        · simp [List.filter_cons, ih, h]

/-- Stability of the sort, per key class: sorting does not change the
subsequence of rows carrying any fixed key. -/
theorem filter_sortValues
    (htot : ∀ a b, kle a b = true ∨ kle b a = true) (k : κ) :
    ∀ l : List α,
      (sortValues key kle l).filter (fun a => decide (key a = k)) =
        l.filter (fun a => decide (key a = k))
  | [] => rfl
  | a :: l => by
      simp only [sortValues, List.insertionSort]
      rw [filter_orderedInsert key kle htot k a (l.insertionSort (keyRel key kle))]
      have ih := filter_sortValues htot k l
      simp only [sortValues] at ih
      by_cases h : key a = k <;> simp [List.filter_cons, ih, h]

theorem dedupLast_sublist : ∀ l : List α, List.Sublist (dedupLast key l) l
  | [] => List.Sublist.refl []
  | x :: xs => by
      simp only [dedupLast]
      by_cases h : xs.any (fun y => decide (key y = key x)) = true
      · rw [if_pos h]
        exact (dedupLast_sublist xs).trans (List.sublist_cons_self x xs)
      · rw [if_neg h]
        exact (dedupLast_sublist xs).cons₂ x

/-- After `drop_duplicates(keep="last")` the keys are pairwise distinct. -/
theorem dedupLast_keys_nodup : ∀ l : List α, ((dedupLast key l).map key).Nodup
  | [] => List.nodup_nil
  | x :: xs => by
      simp only [dedupLast]
      by_cases h : xs.any (fun y => decide (key y = key x)) = true
      · rw [if_pos h]
        exact dedupLast_keys_nodup xs
      · rw [if_neg h]
        rw [List.map_cons, List.nodup_cons]
        refine ⟨?_, dedupLast_keys_nodup xs⟩
        intro hmem
        rcases List.mem_map.mp hmem with ⟨y, hy, hky⟩
        have hyxs : y ∈ xs := (dedupLast_sublist key xs).subset hy
        apply h
        rw [List.any_eq_true]
        exact ⟨y, hyxs, by simp [hky]⟩

/-- A table whose keys are already unique passes through
`drop_duplicates(keep="last")` unchanged. -/
theorem dedupLast_eq_self : ∀ l : List α, ((l.map key).Nodup) → dedupLast key l = l
  | [], _ => rfl
  | x :: xs, h => by
      rw [List.map_cons, List.nodup_cons] at h
      have hx : xs.any (fun y => decide (key y = key x)) = false := by
        rw [List.any_eq_false]
        intro y hy
        simp only [decide_eq_true_eq]
        intro hk
        exact h.1 (List.mem_map.mpr ⟨y, hy, hk⟩)
      simp only [dedupLast, hx, Bool.false_eq_true, if_false]
      rw [dedupLast_eq_self xs h.2]

theorem getLast?_cons_of_ne_nil {x : α} {t : List α} (h : t ≠ []) :
    (x :: t).getLast? = t.getLast? := by
  cases t with
  | nil => exact absurd rfl h
  | cons a t' => exact List.getLast?_cons_cons

/-- `drop_duplicates(keep="last")` keeps, for every key, exactly the last
row of that key class. -/
theorem filter_dedupLast (k : κ) :
    ∀ l : List α,
      (dedupLast key l).filter (fun a => decide (key a = k)) =
        ((l.filter (fun a => decide (key a = k))).getLast?).toList
  | [] => rfl
  | x :: xs => by
      have ih := filter_dedupLast k xs
      simp only [dedupLast]
      by_cases h : xs.any (fun y => decide (key y = key x)) = true
      · rw [if_pos h]
        rcases List.any_eq_true.mp h with ⟨y, hy, hky⟩
        rw [decide_eq_true_eq] at hky
        by_cases hk : key x = k
        · have hne : xs.filter (fun a => decide (key a = k)) ≠ [] := by
            intro hnil
            have := List.filter_eq_nil_iff.mp hnil y hy
            simp [hky, hk] at this
          rw [ih, List.filter_cons, if_pos (by simp [hk]),
            getLast?_cons_of_ne_nil hne]
        · rw [ih, List.filter_cons, if_neg (by simp [hk])]
      · rw [if_neg h]
        have hnone : ∀ y ∈ xs, key y ≠ key x := by
          intro y hy hk
          have := List.any_eq_false.mp (Bool.not_eq_true _ ▸ h) y hy
          simp [hk] at this
        by_cases hk : key x = k
        · have hxs : xs.filter (fun a => decide (key a = k)) = [] := by
            rw [List.filter_eq_nil_iff]
            intro y hy
            simp only [decide_eq_true_eq]
            intro hyk
            exact hnone y hy (hyk.trans hk.symm)
          have hded : (dedupLast key xs).filter (fun a => decide (key a = k)) = [] := by
            rw [ih, hxs]
            rfl
          rw [List.filter_cons, if_pos (by simp [hk]), hded,
            List.filter_cons, if_pos (by simp [hk]), hxs]
          rfl
        · rw [List.filter_cons, if_neg (by simp [hk]), ih,
            List.filter_cons, if_neg (by simp [hk])]

end KeySort

/-! ## Region classifier (src/data/region_map.py) -/

/-- `ISO_REGION_MAP`: the bulk region table of `region_map.py` after applying
`AGGREGATE_OVERRIDES` (`dict.update`) and the five `setdefault` additions, in
insertion order.  `REU` appears once: it is in the Sub-Saharan Africa bulk
list, so its `setdefault` is a no-op. -/
def ISO_REGION_MAP : List (PyStr × String) := [
  (str2c "CAN", "North America"),
  (str2c "USA", "North America"),
  (str2c "GRL", "North America"),
  (str2c "BMU", "North America"),
  (str2c "ABW", "Latin America & Caribbean"),
  (str2c "AIA", "Latin America & Caribbean"),
  (str2c "ATG", "Latin America & Caribbean"),
  (str2c "ARG", "Latin America & Caribbean"),
  (str2c "BHS", "Latin America & Caribbean"),
  (str2c "BRB", "Latin America & Caribbean"),
  (str2c "BLZ", "Latin America & Caribbean"),
  (str2c "BOL", "Latin America & Caribbean"),
  (str2c "BRA", "Latin America & Caribbean"),
  (str2c "CHL", "Latin America & Caribbean"),
  (str2c "COL", "Latin America & Caribbean"),
  (str2c "CRI", "Latin America & Caribbean"),
  (str2c "CUB", "Latin America & Caribbean"),
  (str2c "CUW", "Latin America & Caribbean"),
  (str2c "CYM", "Latin America & Caribbean"),
  (str2c "DMA", "Latin America & Caribbean"),
  (str2c "DOM", "Latin America & Caribbean"),
  (str2c "ECU", "Latin America & Caribbean"),
  (str2c "GLP", "Latin America & Caribbean"),
  (str2c "GRD", "Latin America & Caribbean"),
  (str2c "GTM", "Latin America & Caribbean"),
  (str2c "GUF", "Latin America & Caribbean"),
  (str2c "GUY", "Latin America & Caribbean"),
  (str2c "HND", "Latin America & Caribbean"),
  (str2c "HTI", "Latin America & Caribbean"),
  (str2c "JAM", "Latin America & Caribbean"),
  (str2c "KNA", "Latin America & Caribbean"),
  (str2c "LCA", "Latin America & Caribbean"),
  (str2c "MEX", "Latin America & Caribbean"),
  (str2c "MSR", "Latin America & Caribbean"),
  (str2c "MTQ", "Latin America & Caribbean"),
  (str2c "NIC", "Latin America & Caribbean"),
  (str2c "PAN", "Latin America & Caribbean"),
  (str2c "PER", "Latin America & Caribbean"),
  (str2c "PRI", "Latin America & Caribbean"),
  (str2c "PRY", "Latin America & Caribbean"),
  (str2c "SUR", "Latin America & Caribbean"),
  (str2c "TTO", "Latin America & Caribbean"),
  (str2c "URY", "Latin America & Caribbean"),
  (str2c "VEN", "Latin America & Caribbean"),
  (str2c "VCT", "Latin America & Caribbean"),
  (str2c "VGB", "Latin America & Caribbean"),
  (str2c "ALA", "Europe & Central Asia"),
  (str2c "ALB", "Europe & Central Asia"),
  (str2c "AND", "Europe & Central Asia"),
  (str2c "ARM", "Europe & Central Asia"),
  (str2c "AUT", "Europe & Central Asia"),
  (str2c "AZE", "Europe & Central Asia"),
  (str2c "BEL", "Europe & Central Asia"),
  (str2c "BGR", "Europe & Central Asia"),
  (str2c "BIH", "Europe & Central Asia"),
  (str2c "BLR", "Europe & Central Asia"),
  (str2c "CHE", "Europe & Central Asia"),
  (str2c "CYP", "Europe & Central Asia"),
  (str2c "CZE", "Europe & Central Asia"),
  (str2c "DEU", "Europe & Central Asia"),
  (str2c "DNK", "Europe & Central Asia"),
  (str2c "ESP", "Europe & Central Asia"),
  (str2c "EST", "Europe & Central Asia"),
  (str2c "FIN", "Europe & Central Asia"),
  (str2c "FRA", "Europe & Central Asia"),
  (str2c "GBR", "Europe & Central Asia"),
  (str2c "GEO", "Europe & Central Asia"),
  (str2c "GRC", "Europe & Central Asia"),
  (str2c "HRV", "Europe & Central Asia"),
  (str2c "HUN", "Europe & Central Asia"),
  (str2c "IRL", "Europe & Central Asia"),
  (str2c "ISL", "Europe & Central Asia"),
  (str2c "ITA", "Europe & Central Asia"),
  (str2c "KAZ", "Europe & Central Asia"),
  (str2c "KGZ", "Europe & Central Asia"),
  (str2c "LTU", "Europe & Central Asia"),
  (str2c "LUX", "Europe & Central Asia"),
  (str2c "LVA", "Europe & Central Asia"),
  (str2c "MDA", "Europe & Central Asia"),
  (str2c "MKD", "Europe & Central Asia"),
  (str2c "MLT", "Europe & Central Asia"),
  (str2c "MNE", "Europe & Central Asia"),
  (str2c "NLD", "Europe & Central Asia"),
  (str2c "NOR", "Europe & Central Asia"),
  (str2c "POL", "Europe & Central Asia"),
  (str2c "PRT", "Europe & Central Asia"),
  (str2c "ROU", "Europe & Central Asia"),
  (str2c "RUS", "Europe & Central Asia"),
  (str2c "SMR", "Europe & Central Asia"),
  (str2c "SRB", "Europe & Central Asia"),
  (str2c "SVK", "Europe & Central Asia"),
  (str2c "SVN", "Europe & Central Asia"),
  (str2c "SWE", "Europe & Central Asia"),
  (str2c "TUR", "Europe & Central Asia"),
  (str2c "UKR", "Europe & Central Asia"),
  (str2c "UZB", "Europe & Central Asia"),
  (str2c "ARE", "Middle East & North Africa"),
  (str2c "BHR", "Middle East & North Africa"),
  (str2c "DZA", "Middle East & North Africa"),
  (str2c "EGY", "Middle East & North Africa"),
  (str2c "IRN", "Middle East & North Africa"),
  (str2c "IRQ", "Middle East & North Africa"),
  (str2c "ISR", "Middle East & North Africa"),
  (str2c "JOR", "Middle East & North Africa"),
  (str2c "KWT", "Middle East & North Africa"),
  (str2c "LBN", "Middle East & North Africa"),
  (str2c "LBY", "Middle East & North Africa"),
  (str2c "MAR", "Middle East & North Africa"),
  (str2c "MRT", "Middle East & North Africa"),
  (str2c "OMN", "Middle East & North Africa"),
  (str2c "PSE", "Middle East & North Africa"),
  (str2c "QAT", "Middle East & North Africa"),
  (str2c "SAU", "Middle East & North Africa"),
  (str2c "SDN", "Middle East & North Africa"),
  (str2c "SYR", "Middle East & North Africa"),
  (str2c "TUN", "Middle East & North Africa"),
  (str2c "YEM", "Middle East & North Africa"),
  (str2c "AGO", "Sub-Saharan Africa"),
  (str2c "BDI", "Sub-Saharan Africa"),
  (str2c "BEN", "Sub-Saharan Africa"),
  (str2c "BFA", "Sub-Saharan Africa"),
  (str2c "BWA", "Sub-Saharan Africa"),
  (str2c "CIV", "Sub-Saharan Africa"),
  (str2c "CMR", "Sub-Saharan Africa"),
  (str2c "COD", "Sub-Saharan Africa"),
  (str2c "COG", "Sub-Saharan Africa"),
  (str2c "COM", "Sub-Saharan Africa"),
  (str2c "CPV", "Sub-Saharan Africa"),
  (str2c "DJI", "Sub-Saharan Africa"),
  (str2c "ETH", "Sub-Saharan Africa"),
  (str2c "GAB", "Sub-Saharan Africa"),
  (str2c "GHA", "Sub-Saharan Africa"),
  (str2c "GIN", "Sub-Saharan Africa"),
  (str2c "GMB", "Sub-Saharan Africa"),
  (str2c "GNB", "Sub-Saharan Africa"),
  (str2c "GNQ", "Sub-Saharan Africa"),
  (str2c "KEN", "Sub-Saharan Africa"),
  (str2c "LBR", "Sub-Saharan Africa"),
  (str2c "LSO", "Sub-Saharan Africa"),
  (str2c "MDG", "Sub-Saharan Africa"),
  (str2c "MLI", "Sub-Saharan Africa"),
  (str2c "MOZ", "Sub-Saharan Africa"),
  (str2c "MUS", "Sub-Saharan Africa"),
  (str2c "MWI", "Sub-Saharan Africa"),
  (str2c "NAM", "Sub-Saharan Africa"),
  (str2c "NER", "Sub-Saharan Africa"),
  (str2c "NGA", "Sub-Saharan Africa"),
  (str2c "RWA", "Sub-Saharan Africa"),
  (str2c "SEN", "Sub-Saharan Africa"),
  (str2c "SLE", "Sub-Saharan Africa"),
  (str2c "SOM", "Sub-Saharan Africa"),
  (str2c "SSD", "Sub-Saharan Africa"),
  (str2c "STP", "Sub-Saharan Africa"),
  (str2c "SWZ", "Sub-Saharan Africa"),
  (str2c "TCD", "Sub-Saharan Africa"),
  (str2c "TGO", "Sub-Saharan Africa"),
  (str2c "TZA", "Sub-Saharan Africa"),
  (str2c "UGA", "Sub-Saharan Africa"),
  (str2c "ZAF", "Sub-Saharan Africa"),
  (str2c "ZMB", "Sub-Saharan Africa"),
  (str2c "ZWE", "Sub-Saharan Africa"),
  (str2c "REU", "Sub-Saharan Africa"),
  (str2c "AFG", "South Asia"),
  (str2c "BGD", "South Asia"),
  (str2c "BTN", "South Asia"),
  (str2c "IND", "South Asia"),
  (str2c "LKA", "South Asia"),
  (str2c "MDV", "South Asia"),
  (str2c "NPL", "South Asia"),
  (str2c "PAK", "South Asia"),
  (str2c "AUS", "East Asia & Pacific"),
  (str2c "BRN", "East Asia & Pacific"),
  (str2c "CHN", "East Asia & Pacific"),
  (str2c "COK", "East Asia & Pacific"),
  (str2c "FJI", "East Asia & Pacific"),
  (str2c "FSM", "East Asia & Pacific"),
  (str2c "GUM", "East Asia & Pacific"),
  (str2c "HKG", "East Asia & Pacific"),
  (str2c "IDN", "East Asia & Pacific"),
  (str2c "JPN", "East Asia & Pacific"),
  (str2c "KHM", "East Asia & Pacific"),
  (str2c "KIR", "East Asia & Pacific"),
  (str2c "KOR", "East Asia & Pacific"),
  (str2c "LAO", "East Asia & Pacific"),
  (str2c "MAC", "East Asia & Pacific"),
  (str2c "MMR", "East Asia & Pacific"),
  (str2c "MNG", "East Asia & Pacific"),
  (str2c "MYS", "East Asia & Pacific"),
  (str2c "NCL", "East Asia & Pacific"),
  (str2c "NZL", "East Asia & Pacific"),
  (str2c "PHL", "East Asia & Pacific"),
  (str2c "PNG", "East Asia & Pacific"),
  (str2c "PLW", "East Asia & Pacific"),
  (str2c "SGP", "East Asia & Pacific"),
  (str2c "SLB", "East Asia & Pacific"),
  (str2c "THA", "East Asia & Pacific"),
  (str2c "TLS", "East Asia & Pacific"),
  (str2c "TON", "East Asia & Pacific"),
  (str2c "VNM", "East Asia & Pacific"),
  (str2c "VUT", "East Asia & Pacific"),
  (str2c "WSM", "East Asia & Pacific"),
  (str2c "NAC", "North America"),
  (str2c "SAS", "South Asia"),
  (str2c "WLD", "Global"),
  (str2c "PYF", "East Asia & Pacific"),
  (str2c "SLV", "Latin America & Caribbean"),
  (str2c "SYC", "Sub-Saharan Africa"),
  (str2c "TJK", "Europe & Central Asia")
]
/-- `REGION_FALLBACK` from `region_map.py`. -/
def REGION_FALLBACK : String := "Other / Unmapped"

/-- `Series.map(ISO_REGION_MAP).fillna(REGION_FALLBACK)`: dictionary lookup
with the fallback label for unmapped codes. -/
def lookupRegion (code : PyStr) : String :=
  match ISO_REGION_MAP.find? (fun p => decide (p.1 = code)) with
  | some p => p.2
  | none => REGION_FALLBACK

/-! ## The cleaning stage (`clean_dataframe`, src/pipeline.py) -/

/-- One raw CSV record after `pd.to_datetime(..., errors="coerce",
format="%Y-%m-%d")` and `pd.to_numeric(..., errors="coerce")`: the period and
value carry `none` when parsing failed (pandas `NaT`/`NaN`), and the two
string columns carry `none` when the cell was missing. -/
structure RawRow where
  REF_AREA : Option PyStr
  REF_AREA_LABEL : Option PyStr
  TIME_PERIOD : Option Date
  OBS_VALUE : Option ℚ
deriving DecidableEq, Repr

/-- One row of the cleaned, enriched table. -/
structure CleanRow where
  REF_AREA : PyStr
  REF_AREA_LABEL : PyStr
  TIME_PERIOD : Date
  OBS_VALUE : ℚ
  region : String
  year : Nat
  month : Nat
  quarter : Nat
  year_month : String
  decade : Nat
  era : String
deriving DecidableEq, Repr

/-- `TIME_PERIOD.dt.to_period("M").astype(str)`: the `"YYYY-MM"` label. -/
def yearMonthStr (d : Date) : String :=
  toString d.year ++ "-" ++
    (if d.month < 10 then "0" ++ toString d.month else toString d.month)

/-- The type-normalization half of `clean_dataframe`: strip/upper + sentinel
fill on `REF_AREA`, strip + sentinel fill on `REF_AREA_LABEL`, and the two
`dropna` filters (a row survives iff period and value both parsed). -/
def cleanFields (r : RawRow) : Option (PyStr × PyStr × Date × ℚ) :=
  match r.TIME_PERIOD, r.OBS_VALUE with
  | some d, some v =>
      some
        ((match r.REF_AREA with
          | some s => normArea s
          | none => str2c "UNK"),
         (match r.REF_AREA_LABEL with
          | some s => pyStrip s
          | none => str2c "Unknown Region"),
         d, v)
  | _, _ => none

/-- The dimensional-enrichment half of `clean_dataframe`: region, calendar
fields, decade, and era, each derived from the cleaned columns. -/
def enrich (c : PyStr × PyStr × Date × ℚ) : CleanRow :=
  { REF_AREA := c.1
    REF_AREA_LABEL := c.2.1
    TIME_PERIOD := c.2.2.1
    OBS_VALUE := c.2.2.2
    region := lookupRegion c.1
    year := c.2.2.1.year
    month := c.2.2.1.month
    quarter := (c.2.2.1.month + 2) / 3
    year_month := yearMonthStr c.2.2.1
    decade := c.2.2.1.year / 10 * 10
    era := classify_era c.2.2.1 }

/-- The deduplication key: `subset=["REF_AREA", "TIME_PERIOD"]`. -/
def rowKey (r : CleanRow) : PyStr × Date := (r.REF_AREA, r.TIME_PERIOD)

/-- The valid (parsed) rows of the input in their original order, enriched;
the list `clean_dataframe` then sorts and deduplicates. -/
def validRows (df : List RawRow) : List CleanRow :=
  (df.filterMap cleanFields).map enrich

/-- `clean_dataframe` (src/pipeline.py): normalize and drop unparseable
rows, enrich, sort by `(REF_AREA, TIME_PERIOD)` (stable), and
`drop_duplicates(subset=["REF_AREA", "TIME_PERIOD"], keep="last")`. -/
def clean_dataframe (df : List RawRow) : List CleanRow :=
  dedupLast rowKey (sortValues rowKey pkeyLeb (validRows df))

/-- C2: after cleaning there is exactly one row per `(REF_AREA, TIME_PERIOD)`
key, and the row kept for a key is the *last* valid row with that key in
original input order (so of two duplicates with different values, the later
one in the input wins — the sort being stable). -/
theorem clean_unique_and_last_wins (df : List RawRow) :
    (((clean_dataframe df).map rowKey).Nodup) ∧
    ∀ k : PyStr × Date,
      (clean_dataframe df).filter (fun r => decide (rowKey r = k)) =
        (((validRows df).filter (fun r => decide (rowKey r = k))).getLast?).toList := by
  constructor
  · exact dedupLast_keys_nodup rowKey _
  · intro k
    unfold clean_dataframe
    rw [filter_dedupLast rowKey k _]
    rw [filter_sortValues rowKey pkeyLeb pkeyLeb_total k _]

/-! ## String-normalization fixpoints (for cleaning idempotence) -/

theorem dropWhile_idem (p : Nat → Bool) :
    ∀ l : List Nat, List.dropWhile p (List.dropWhile p l) = List.dropWhile p l
  | [] => rfl
  | x :: xs => by
      by_cases h : p x = true
      · simp [List.dropWhile_cons, h, dropWhile_idem p xs]
      · simp [List.dropWhile_cons, h]

theorem head_dropWhile_not (p : Nat → Bool) :
    ∀ (l : List Nat) (x : Nat) (t : List Nat),
      List.dropWhile p l = x :: t → p x = false
  | [], x, t, h => by simp at h
  | a :: as, x, t, h => by
      rw [List.dropWhile_cons] at h
      by_cases ha : p a = true
      · rw [if_pos ha] at h
        exact head_dropWhile_not p as x t h
      · rw [if_neg ha] at h
        cases h
        exact Bool.not_eq_true _ ▸ ha

theorem exists_append_dropWhile (p : Nat → Bool) :
    ∀ l : List Nat, ∃ pre, l = pre ++ List.dropWhile p l
  | [] => ⟨[], rfl⟩
  | x :: xs => by
      by_cases h : p x = true
      · obtain ⟨pre, hpre⟩ := exists_append_dropWhile p xs
        exact ⟨x :: pre, by simp [List.dropWhile_cons, h, ← hpre]⟩
      · exact ⟨[], by simp [List.dropWhile_cons, h]⟩

theorem pyStripLeft_idem (s : PyStr) : pyStripLeft (pyStripLeft s) = pyStripLeft s :=
  dropWhile_idem pyIsSpace s

theorem pyStripRight_idem (s : PyStr) : pyStripRight (pyStripRight s) = pyStripRight s := by
  unfold pyStripRight
  rw [List.reverse_reverse, dropWhile_idem]

/-- If `str.rstrip` leaves anything, its head is the head of its input. -/
theorem pyStripRight_head (m : PyStr) (y : Nat) (t : PyStr)
    (h : pyStripRight m = y :: t) : ∃ t', m = y :: t' := by
  obtain ⟨pre, hpre⟩ := exists_append_dropWhile pyIsSpace m.reverse
  have hm : m = (List.dropWhile pyIsSpace m.reverse).reverse ++ pre.reverse := by
    have h2 := congrArg List.reverse hpre
    rw [List.reverse_reverse, List.reverse_append] at h2
    exact h2
  unfold pyStripRight at h
  rw [h] at hm
  exact ⟨t ++ pre.reverse, by simpa using hm⟩

theorem pyStripLeft_stripRight_stripLeft (s : PyStr) :
    pyStripLeft (pyStripRight (pyStripLeft s)) = pyStripRight (pyStripLeft s) := by
  cases h : pyStripRight (pyStripLeft s) with
  | nil => rfl
  | cons y t =>
      obtain ⟨t', ht'⟩ := pyStripRight_head _ y t h
      have hy : pyIsSpace y = false := head_dropWhile_not pyIsSpace s y t' ht'
      show List.dropWhile pyIsSpace (y :: t) = y :: t
      rw [List.dropWhile_cons, if_neg (by simp [hy])]

theorem pyStrip_idem (s : PyStr) : pyStrip (pyStrip s) = pyStrip s := by
  unfold pyStrip
  rw [pyStripLeft_stripRight_stripLeft, pyStripRight_idem]

theorem pyToUpperChar_idem (c : Nat) :
    pyToUpperChar (pyToUpperChar c) = pyToUpperChar c := by
  unfold pyToUpperChar
  split_ifs <;> omega

theorem pyIsSpace_upper (c : Nat) : pyIsSpace (pyToUpperChar c) = pyIsSpace c := by
  unfold pyToUpperChar
  split_ifs with h
  · have h1 : pyIsSpace (c - 32) = false := by
      simp only [pyIsSpace, Bool.or_eq_false_iff, Bool.and_eq_false_iff,
        decide_eq_false_iff_not]
      omega
    have h2 : pyIsSpace c = false := by
      simp only [pyIsSpace, Bool.or_eq_false_iff, Bool.and_eq_false_iff,
        decide_eq_false_iff_not]
      omega
    rw [h1, h2]
  · rfl

theorem pyUpper_idem (s : PyStr) : pyUpper (pyUpper s) = pyUpper s := by
  unfold pyUpper
  rw [List.map_map]
  exact List.map_congr_left fun c _ => pyToUpperChar_idem c

theorem dropWhile_upper :
    ∀ l : List Nat,
      List.dropWhile pyIsSpace (List.map pyToUpperChar l) =
        List.map pyToUpperChar (List.dropWhile pyIsSpace l)
  | [] => rfl
  | x :: xs => by
      rw [List.map_cons, List.dropWhile_cons, List.dropWhile_cons, pyIsSpace_upper x]
      by_cases h : pyIsSpace x = true
      · rw [if_pos (by simp [h]), if_pos (by simp [h])]
        exact dropWhile_upper xs
      · rw [if_neg (by simp [h]), if_neg (by simp [h]), List.map_cons]

theorem pyStripLeft_upper (s : PyStr) :
    pyStripLeft (pyUpper s) = pyUpper (pyStripLeft s) :=
  dropWhile_upper s

theorem pyStripRight_upper (s : PyStr) :
    pyStripRight (pyUpper s) = pyUpper (pyStripRight s) := by
  unfold pyStripRight pyUpper
  rw [← List.map_reverse, dropWhile_upper, List.map_reverse]

theorem pyStrip_upper (s : PyStr) : pyStrip (pyUpper s) = pyUpper (pyStrip s) := by
  unfold pyStrip
  rw [pyStripLeft_upper, pyStripRight_upper]

/-- `.str.strip().str.upper()` is a projection: applying it twice equals
applying it once. -/
theorem normArea_idem (s : PyStr) : normArea (normArea s) = normArea s := by
  unfold normArea
  rw [pyStrip_upper, pyUpper_idem, pyStrip_idem]

theorem normArea_UNK : normArea (str2c "UNK") = str2c "UNK" := by decide

theorem pyStrip_unknown_region :
    pyStrip (str2c "Unknown Region") = str2c "Unknown Region" := by decide

/-! ## Cleaning idempotence (C10) and period pass-through (C6) -/

/-- The four cleaned data columns of an enriched row. -/
def quadOf (r : CleanRow) : PyStr × PyStr × Date × ℚ :=
  (r.REF_AREA, r.REF_AREA_LABEL, r.TIME_PERIOD, r.OBS_VALUE)

/-- Feeding a cleaned table back into the pipeline: the enriched table's
columns, viewed as a raw record (every cell present). -/
def toRaw (r : CleanRow) : RawRow :=
  { REF_AREA := some r.REF_AREA
    REF_AREA_LABEL := some r.REF_AREA_LABEL
    TIME_PERIOD := some r.TIME_PERIOD
    OBS_VALUE := some r.OBS_VALUE }

/-- Rows produced by the cleaning stage are fixed by a second pass: their
area/label strings are already normalized and their derived columns are
recomputed identically. -/
theorem canon_of_mem_valid (df : List RawRow) (r : CleanRow)
    (hr : r ∈ validRows df) :
    cleanFields (toRaw r) = some (quadOf r) ∧ enrich (quadOf r) = r := by
  unfold validRows at hr
  rcases List.mem_map.mp hr with ⟨c, hc, rfl⟩
  rcases List.mem_filterMap.mp hc with ⟨raw, _, hraw⟩
  rcases raw with ⟨a, lb, d, v⟩
  cases d with
  | none => simp [cleanFields] at hraw
  | some d0 =>
    cases v with
    | none => simp [cleanFields] at hraw
    | some v0 =>
      simp only [cleanFields, Option.some.injEq] at hraw
      constructor
      · show cleanFields (toRaw (enrich c)) = some (quadOf (enrich c))
        simp only [cleanFields, toRaw, enrich, quadOf, Option.some.injEq,
          Prod.mk.injEq]
        refine ⟨?_, ?_, trivial⟩
        · rw [← hraw]
          cases a with
          | none => exact normArea_UNK
          | some s => exact normArea_idem s
        · rw [← hraw]
          cases lb with
          | none => exact pyStrip_unknown_region
          | some s => exact pyStrip_idem s
      · rfl

theorem mem_valid_of_mem_clean (df : List RawRow) {r : CleanRow}
    (h : r ∈ clean_dataframe df) : r ∈ validRows df := by
  unfold clean_dataframe at h
  have h1 := (dedupLast_sublist rowKey _).subset h
  exact (List.mem_insertionSort _).mp h1

theorem validRows_toRaw :
    ∀ l : List CleanRow,
      (∀ r ∈ l, cleanFields (toRaw r) = some (quadOf r) ∧ enrich (quadOf r) = r) →
      validRows (l.map toRaw) = l
  | [], _ => rfl
  | x :: xs, h => by
      have hx := h x (List.mem_cons_self x xs)
      have ih := validRows_toRaw xs fun r hr => h r (List.mem_cons_of_mem x hr)
      unfold validRows at ih ⊢
      rw [List.map_cons, List.filterMap_cons, hx.1, List.map_cons, hx.2, ih]

theorem clean_sorted (df : List RawRow) :
    List.Sorted (keyRel rowKey pkeyLeb) (clean_dataframe df) := by
  haveI : IsTotal CleanRow (keyRel rowKey pkeyLeb) :=
    ⟨fun a b => pkeyLeb_total (rowKey a) (rowKey b)⟩
  haveI : IsTrans CleanRow (keyRel rowKey pkeyLeb) :=
    ⟨fun _ _ _ h1 h2 => pkeyLeb_trans h1 h2⟩
  have hs : List.Sorted (keyRel rowKey pkeyLeb)
      (sortValues rowKey pkeyLeb (validRows df)) :=
    List.sorted_insertionSort _ (validRows df)
  exact hs.sublist (dedupLast_sublist rowKey _)

/-- C10: the cleaning stage is idempotent — feeding its output back through
`clean_dataframe` reproduces the output exactly (same rows, same values,
nothing further dropped). -/
theorem clean_dataframe_idempotent (df : List RawRow) :
    clean_dataframe ((clean_dataframe df).map toRaw) = clean_dataframe df := by
  have hcanon : ∀ r ∈ clean_dataframe df,
      cleanFields (toRaw r) = some (quadOf r) ∧ enrich (quadOf r) = r :=
    fun r hr => canon_of_mem_valid df r (mem_valid_of_mem_clean df hr)
  have hvalid : validRows ((clean_dataframe df).map toRaw) = clean_dataframe df :=
    validRows_toRaw _ hcanon
  show dedupLast rowKey
      (sortValues rowKey pkeyLeb (validRows ((clean_dataframe df).map toRaw))) =
    clean_dataframe df
  rw [hvalid]
  have hsorted := clean_sorted df
  unfold sortValues
  rw [hsorted.insertionSort_eq]
  exact dedupLast_eq_self rowKey _ (dedupLast_keys_nodup rowKey _)

/-- The period of every valid row is the parsed raw period, unchanged. -/
theorem period_from_raw (df : List RawRow) (r : CleanRow)
    (hr : r ∈ validRows df) : ∃ raw ∈ df, raw.TIME_PERIOD = some r.TIME_PERIOD := by
  unfold validRows at hr
  rcases List.mem_map.mp hr with ⟨c, hc, rfl⟩
  rcases List.mem_filterMap.mp hc with ⟨raw, hin, hraw⟩
  rcases raw with ⟨a, lb, d, v⟩
  cases d with
  | none => simp [cleanFields] at hraw
  | some d0 =>
    cases v with
    | none => simp [cleanFields] at hraw
    | some v0 =>
      simp only [cleanFields, Option.some.injEq] at hraw
      refine ⟨⟨a, lb, some d0, some v0⟩, hin, ?_⟩
      show some d0 = some (enrich c).TIME_PERIOD
      rw [← hraw]
      rfl

/-- C6 (amended): the cleaning stage does not normalize the day component.
Every cleaned row's period is some raw row's parsed period unchanged; hence
all cleaned periods are first-of-month iff the raw data's parsed periods
are (which holds for the monthly source data), not unconditionally. -/
theorem clean_period_passthrough (df : List RawRow) :
    (∀ r ∈ clean_dataframe df, ∃ raw ∈ df, raw.TIME_PERIOD = some r.TIME_PERIOD) ∧
    ((∀ raw ∈ df, ∀ d : Date, raw.TIME_PERIOD = some d → d.day = 1) →
      ∀ r ∈ clean_dataframe df, r.TIME_PERIOD.day = 1) := by
  constructor
  · intro r hr
    exact period_from_raw df r (mem_valid_of_mem_clean df hr)
  · intro hall r hr
    obtain ⟨raw, hin, hp⟩ := period_from_raw df r (mem_valid_of_mem_clean df hr)
    exact hall raw hin r.TIME_PERIOD hp

/-- C6 counterexample: a raw row whose period string parses to 2020-05-15
survives cleaning with its period still on day 15 — the claim that every
cleaned period is the first day of a month regardless of the raw day
component is false. -/
theorem clean_period_day_counterexample :
    ∃ r ∈ clean_dataframe
        [{ REF_AREA := some (str2c "USA"),
           REF_AREA_LABEL := some (str2c "United States"),
           TIME_PERIOD := some ⟨2020, 5, 15⟩,
           OBS_VALUE := some 2 }],
      r.TIME_PERIOD.day ≠ 1 := by
  decide

/-- Witness for the amended C6 theorem at a concrete one-row input whose
raw period is first-of-month: the surviving enriched row has day 1. -/
theorem clean_period_passthrough_witness :
    (enrich (str2c "USA", str2c "United States", ⟨2020, 5, 1⟩, 2)).TIME_PERIOD.day
      = 1 := by
  apply (clean_period_passthrough
    [{ REF_AREA := some (str2c "USA"),
       REF_AREA_LABEL := some (str2c "United States"),
       TIME_PERIOD := some ⟨2020, 5, 1⟩,
       OBS_VALUE := some 2 }]).2
  · intro raw hraw d hd
    rcases List.mem_singleton.mp hraw with rfl
    cases hd
    rfl
  · decide

/-! ## Aggregation engine (src/components/analytics.py, src/views/risk.py)

The analytics functions take the enriched table (or a filtered slice); the
embedding carries the columns they consume.  Observation values are `ℚ`;
the float standard deviation is `Real.sqrt` of the rational sample
variance, so volatility-valued results live in `ℝ`. -/

/-- One row of the table consumed by the aggregation layer. -/
structure ObsRow where
  REF_AREA : PyStr
  REF_AREA_LABEL : PyStr
  region : PyStr
  TIME_PERIOD : Date
  OBS_VALUE : ℚ
deriving DecidableEq, Repr

namespace Analytics

/-- `≤` on label strings. -/
def pyStrLeb (a b : PyStr) : Bool := !(pyStrLtb b a)

/-- `sorted(set(..))`-style key list: the distinct values in ascending
order, as produced for `groupby` keys (pandas sorts group keys). -/
def uniqueSorted (l : List PyStr) : List PyStr :=
  l.dedup.insertionSort (fun a b => pyStrLeb a b = true)

/-- `Series.mean()` (empty case guarded by callers: `groupby` only forms
nonempty groups). -/
def meanQ (l : List ℚ) : ℚ := l.sum / l.length

/-- Sample variance with `ddof=1`, the pandas `std` default. -/
def sampleVarQ (l : List ℚ) : ℚ :=
  ((l.map (fun x => (x - meanQ l) ^ 2)).sum) / ((l.length : ℚ) - 1)

/-- `Series.std()` restricted to series with at least two observations:
the square root of the sample variance.  Its caller `compute_volatility`
only evaluates it on windows of at least 3 observations (`min_periods=3`).
The unrestricted `Series.std()`, whose value on a single observation is
`NaN` (`ddof=1` divides by `n − 1 = 0`), is `Risk.groupStd` below. -/
noncomputable def pandasStd (l : List ℚ) : ℝ := Real.sqrt ((sampleVarQ l : ℚ) : ℝ)

/-- `Series.quantile(q)` with the default linear interpolation. -/
def quantileQ (q : ℚ) (l : List ℚ) : ℚ :=
  let s := l.insertionSort (· ≤ ·)
  let pos : ℚ := q * ((s.length : ℚ) - 1)
  let i : Nat := ⌊pos⌋.toNat
  let frac : ℚ := pos - (i : ℚ)
  s.getD i 0 + frac * (s.getD (i + 1) (s.getD i 0) - s.getD i 0)

/-- The `OBS_VALUE`s of the rows of one `groupby` group, in row order. -/
def valuesOf (rows : List ObsRow) (c : PyStr) : List ℚ :=
  (rows.filter (fun r => decide (r.REF_AREA_LABEL = c))).map (·.OBS_VALUE)

/-- `pd.DateOffset(months=n)` subtracted from a timestamp (the day is kept;
all periods in this data are firsts of months). -/
def subMonths (d : Date) (n : Nat) : Date :=
  let t := d.year * 12 + (d.month - 1) - n
  ⟨t / 12, t % 12 + 1, d.day⟩

/-- Membership in the current break window
(`TIME_PERIOD ≤ latest ∧ TIME_PERIOD > latest - window months`). -/
def inCurWindow (latest : Date) (w : Nat) (d : Date) : Bool :=
  Date.leb d latest && Date.ltb (subMonths latest w) d

/-- Membership in the previous break window
(`TIME_PERIOD ≤ latest - window ∧ TIME_PERIOD > latest - 2·window months`). -/
def inPrevWindow (latest : Date) (w : Nat) (d : Date) : Bool :=
  Date.leb d (subMonths latest w) && Date.ltb (subMonths latest (2 * w)) d

/-- `BreakPoint` (src/components/analytics.py). -/
structure BreakPoint where
  country : PyStr
  latest_avg : ℚ
  prev_avg : ℚ
  shift : ℚ
  period_label : String
deriving DecidableEq, Repr

/-- `compute_breaks`: per-country means over the current and previous
windows; a country is kept only when it appears in the current window's
groups and has a previous-window mean (otherwise `prev_avg` is `NaN` and the
row is skipped); result sorted by `abs(shift)` descending (stable). -/
def compute_breaks (df : List ObsRow) (latest : Date) (window : Nat) :
    List BreakPoint :=
  let cur := df.filter (fun r => inCurWindow latest window r.TIME_PERIOD)
  let prev := df.filter (fun r => inPrevWindow latest window r.TIME_PERIOD)
  let results := (uniqueSorted (cur.map (·.REF_AREA_LABEL))).filterMap fun c =>
    if (valuesOf prev c).isEmpty then none
    else some
      { country := c
        latest_avg := meanQ (valuesOf cur c)
        prev_avg := meanQ (valuesOf prev c)
        shift := meanQ (valuesOf cur c) - meanQ (valuesOf prev c)
        period_label := "Δ" ++ toString window ++ "m" }
  results.insertionSort (fun a b => |b.shift| ≤ |a.shift|)

/-- The key by which `compute_volatility` sorts
(`sort_values(["REF_AREA_LABEL", "TIME_PERIOD"])`). -/
def gkeyLeb (a b : PyStr × Date) : Bool :=
  if pyStrLtb a.1 b.1 then true
  else if pyStrLtb b.1 a.1 then false
  else Date.leb a.2 b.2

/-- The group sort key of an observation row. -/
def groupKey (r : ObsRow) : PyStr × Date := (r.REF_AREA_LABEL, r.TIME_PERIOD)

/-- One output row of `compute_volatility` (country, position inside the
country's sorted group, rolling std or `NaN`). -/
structure VolRow where
  REF_AREA_LABEL : PyStr
  idx : Nat
  volatility : Option ℝ
deriving Inhabited

/-- The trailing rolling window (last `min(window, i+1)` observations of the
group, the values `rolling(window=window)` sees at position `i`). -/
def trailingWindow (df : List ObsRow) (window : Nat) (c : PyStr) (i : Nat) :
    List ℚ :=
  let vals := valuesOf (sortValues groupKey gkeyLeb df) c
  (vals.take (i + 1)).drop (i + 1 - window)

/-- `compute_volatility`: per-country rolling std over the trailing window,
with `min_periods=3` — positions whose window holds fewer than 3
observations yield `NaN` (`none`), not a number. -/
noncomputable def compute_volatility (df : List ObsRow) (window : Nat) :
    List VolRow :=
  (uniqueSorted (df.map (·.REF_AREA_LABEL))).flatMap fun c =>
    let vals := valuesOf (sortValues groupKey gkeyLeb df) c
    (List.range vals.length).map fun i =>
      { REF_AREA_LABEL := c
        idx := i
        volatility :=
          if (trailingWindow df window c i).length < 3 then none
          else some (pandasStd (trailingWindow df window c i)) }

/-- The dictionary returned by `summarize_distribution` when the period
slice is nonempty. -/
structure DistSummary where
  p10 : ℚ
  p25 : ℚ
  median : ℚ
  p75 : ℚ
  p90 : ℚ
  mean : ℚ
  std : ℝ

/-- The single-period slice used by the distribution and hotspot views. -/
def periodSlice (df : List ObsRow) (latest : Date) : List ObsRow :=
  df.filter (fun r => decide (r.TIME_PERIOD = latest))

/-- `summarize_distribution`: percentile spread of one period slice, or an
empty dict (`none`) when the slice has no rows. -/
noncomputable def summarize_distribution (df : List ObsRow) (latest : Date) :
    Option DistSummary :=
  let slice := (periodSlice df latest).map (·.OBS_VALUE)
  if slice.isEmpty then none
  else some
    { p10 := quantileQ (1/10) slice
      p25 := quantileQ (1/4) slice
      median := quantileQ (1/2) slice
      p75 := quantileQ (3/4) slice
      p90 := quantileQ (9/10) slice
      mean := meanQ slice
      std := pandasStd slice }

/-- One row of the `regional_share` summary. -/
structure RegionShare where
  region : PyStr
  countries : Nat
  high : Nat
  share : ℚ
deriving DecidableEq, Repr

/-- `regional_share`: per region, distinct-country count, count of rows at
or above the threshold, and the percentage share.  `ℚ` division by zero is
`0`, which coincides with the source's `.fillna(0)` on the ratio. -/
def regional_share (df : List ObsRow) (latest : Date) (threshold : ℚ) :
    List RegionShare :=
  let slice := periodSlice df latest
  if slice.isEmpty then []
  else (uniqueSorted (slice.map (·.region))).map fun g =>
    let rows := slice.filter (fun r => decide (r.region = g))
    let countries := (rows.map (·.REF_AREA)).dedup.length
    let high := (rows.filter (fun r => decide (threshold ≤ r.OBS_VALUE))).length
    { region := g
      countries := countries
      high := high
      share := ((high : ℚ) / (countries : ℚ)) * 100 }

end Analytics

/-! ## Risk scoring (src/views/risk.py) -/

namespace Risk

open Analytics

/-- Largest element of a nonempty series (`Series.max()`); `0` for the
empty series, which no caller reaches. -/
def listMax {α : Type} [LinearOrderedField α] : List α → α
  | [] => 0
  | x :: xs => xs.foldl max x

/-- Smallest element of a nonempty series (`Series.min()`). -/
def listMin {α : Type} [LinearOrderedField α] : List α → α
  | [] => 0
  | x :: xs => xs.foldl min x

/-- A pandas float cell: a real value, or `NaN`.  The risk view works on
float Series where `NaN` arises (in particular `Series.std()` of a single
observation with `ddof=1` is `NaN`), so this path tracks it explicitly;
rounding is not modelled, `NaN` propagation is. -/
inductive PFloat
  | nan
  | val (x : ℝ)

instance : Inhabited PFloat := ⟨PFloat.nan⟩

/-- Float subtraction: `NaN` propagates. -/
def PFloat.sub : PFloat → PFloat → PFloat
  | PFloat.val x, PFloat.val y => PFloat.val (x - y)
  | _, _ => PFloat.nan

/-- Float addition: `NaN` propagates. -/
def PFloat.add : PFloat → PFloat → PFloat
  | PFloat.val x, PFloat.val y => PFloat.val (x + y)
  | _, _ => PFloat.nan

/-- Float multiplication: `NaN` propagates. -/
def PFloat.mul : PFloat → PFloat → PFloat
  | PFloat.val x, PFloat.val y => PFloat.val (x * y)
  | _, _ => PFloat.nan

/-- Float division: `NaN` propagates.  A number divided by an exact zero
(IEEE `±inf`/`NaN`) is modelled as `NaN`; `normalize` only divides by
`max − min` after `max == min` tested false, so over numbers its divisor
is nonzero and this case is unreachable there. -/
noncomputable def PFloat.div : PFloat → PFloat → PFloat
  | PFloat.val x, PFloat.val y =>
      if y = 0 then PFloat.nan else PFloat.val (x / y)
  | _, _ => PFloat.nan

/-- The float `==` test: any comparison involving `NaN` is false
(`NaN == NaN` is false), as in IEEE / numpy. -/
noncomputable def PFloat.feq : PFloat → PFloat → Bool
  | PFloat.val x, PFloat.val y => decide (x = y)
  | _, _ => false

/-- The numeric (non-`NaN`) entries of a float series, in order. -/
def floatVals (l : List PFloat) : List ℝ :=
  l.filterMap fun x =>
    match x with
    | PFloat.val v => some v
    | PFloat.nan => none

/-- `Series.max()` with the default `skipna=True`: the largest non-`NaN`
entry, or `NaN` if there is none. -/
noncomputable def fmaxList (l : List PFloat) : PFloat :=
  if (floatVals l).isEmpty then PFloat.nan else PFloat.val (listMax (floatVals l))

/-- `Series.min()` with the default `skipna=True`. -/
noncomputable def fminList (l : List PFloat) : PFloat :=
  if (floatVals l).isEmpty then PFloat.nan else PFloat.val (listMin (floatVals l))

/-- `normalize` (src/views/risk.py) on a float series: min-max scaling onto
`[0, 1]`, or the all-zero series when `series.max() == series.min()`.
`NaN` entries propagate through the scaling, and the `max == min` test is
false whenever either side is `NaN`. -/
noncomputable def normalize (l : List PFloat) : List PFloat :=
  if PFloat.feq (fmaxList l) (fminList l) = true then l.map fun _ => PFloat.val 0
  else l.map fun x =>
    PFloat.div (PFloat.sub x (fminList l)) (PFloat.sub (fmaxList l) (fminList l))

/-- The countries of the risk view, in `groupby` key order. -/
def riskCountries (df : List ObsRow) : List PyStr :=
  uniqueSorted (df.map (·.REF_AREA_LABEL))

/-- The full history of one country's values (`groupby(label)` group). -/
def historyOf (df : List ObsRow) (c : PyStr) : List ℚ := valuesOf df c

/-- `Series.mean()` of one group: `NaN` on the empty series (`groupby`
never forms one), the exact mean otherwise. -/
noncomputable def groupMean (l : List ℚ) : PFloat :=
  if l.isEmpty then PFloat.nan else PFloat.val ((meanQ l : ℚ) : ℝ)

/-- `Series.std()` (`ddof=1`) of one group: `NaN` when there are fewer than
two observations (the sample variance divides by `n − 1`), else the square
root of the sample variance. -/
noncomputable def groupStd (l : List ℚ) : PFloat :=
  if l.length < 2 then PFloat.nan else PFloat.val (pandasStd l)

/-- The `p95 − p05` range of one group (`NaN` on the empty series; a
quantile of a nonempty series is a number). -/
noncomputable def groupRange (l : List ℚ) : PFloat :=
  if l.isEmpty then PFloat.nan
  else PFloat.val ((quantileQ (19/20) l - quantileQ (1/20) l : ℚ) : ℝ)

/-- The per-country `mean` column. -/
noncomputable def meansCol (df : List ObsRow) : List PFloat :=
  (riskCountries df).map fun c => groupMean (historyOf df c)

/-- The per-country `volatility` (std) column; a country whose full history
is a single observation contributes `NaN`. -/
noncomputable def volsCol (df : List ObsRow) : List PFloat :=
  (riskCountries df).map fun c => groupStd (historyOf df c)

/-- The per-country `range` column (`p95 − p05`). -/
noncomputable def rangesCol (df : List ObsRow) : List PFloat :=
  (riskCountries df).map fun c => groupRange (historyOf df c)

/-- One row of `compute_risk_scores` (all metric cells are float cells). -/
structure RiskScore where
  Country : PyStr
  mean : PFloat
  volatility : PFloat
  range : PFloat
  risk_score : PFloat
deriving Inhabited

/-- The rows of `compute_risk_scores` before the final sort: country `i`
carries its aggregates and
`risk_score = norm(mean)·0.4 + norm(volatility)·0.35 + norm(range)·0.25`
(elementwise float Series arithmetic, `NaN` propagating). -/
noncomputable def riskRows (df : List ObsRow) : List RiskScore :=
  (List.range (riskCountries df).length).map fun i =>
    { Country := (riskCountries df).getD i []
      mean := (meansCol df).getD i PFloat.nan
      volatility := (volsCol df).getD i PFloat.nan
      range := (rangesCol df).getD i PFloat.nan
      risk_score :=
        PFloat.add
          (PFloat.add
            (PFloat.mul ((normalize (meansCol df)).getD i PFloat.nan)
              (PFloat.val 0.4))
            (PFloat.mul ((normalize (volsCol df)).getD i PFloat.nan)
              (PFloat.val 0.35)))
          (PFloat.mul ((normalize (rangesCol df)).getD i PFloat.nan)
            (PFloat.val 0.25)) }

/-- The `sort_values("risk_score", ascending=False)` comparison: descending
among numbers, `NaN` sorted last (pandas `na_position="last"`). -/
noncomputable def descLeb : PFloat → PFloat → Bool
  | PFloat.val x, PFloat.val y => decide (y ≤ x)
  | PFloat.nan, PFloat.val _ => false
  | _, PFloat.nan => true

/-- `compute_risk_scores`: the risk table sorted by score descending. -/
noncomputable def compute_risk_scores (df : List ObsRow) : List RiskScore :=
  (riskRows df).insertionSort (fun a b => descLeb a.risk_score b.risk_score = true)

/-- A float cell lies in the closed unit interval: it is an actual number
in `[0, 1]` (`NaN` is not). -/
def inUnitInterval (x : PFloat) : Prop :=
  ∃ y : ℝ, x = PFloat.val y ∧ 0 ≤ y ∧ y ≤ 1

end Risk

/-! ## C4: structural break detection -/

theorem valuesOf_ne_nil (rows : List ObsRow) (c : PyStr)
    (h : c ∈ rows.map (·.REF_AREA_LABEL)) : Analytics.valuesOf rows c ≠ [] := by
  rcases List.mem_map.mp h with ⟨r, hr, rfl⟩
  unfold Analytics.valuesOf
  intro hnil
  rcases List.map_eq_nil_iff.mp hnil with hfil
  have := List.filter_eq_nil_iff.mp hfil r hr
  simp at this

theorem mem_uniqueSorted {c : PyStr} {l : List PyStr} :
    c ∈ Analytics.uniqueSorted l ↔ c ∈ l := by
  unfold Analytics.uniqueSorted
  rw [List.mem_insertionSort, List.mem_dedup]

/-- The 12-month synthetic series of the break-detection test: one country,
flat at 5.0 for 2020-01 .. 2020-06, then 15.0 for 2020-07 .. 2020-12. -/
def breakDemoDf : List ObsRow :=
  (List.range 12).map fun i =>
    { REF_AREA := str2c "USA"
      REF_AREA_LABEL := str2c "A"
      region := str2c "North America"
      TIME_PERIOD := ⟨2020, i + 1, 1⟩
      OBS_VALUE := if i < 6 then 5 else 15 }

/-- C4: every reported break concerns a country present in both windows,
its shift is the signed difference of the two window means, the output is
sorted by absolute shift descending; and on the synthetic flat-then-jump
series with `window = 6` at the jump boundary the result is exactly one
break for country A with shift `+10`, ranked first. -/
theorem compute_breaks_spec :
    (∀ (df : List ObsRow) (latest : Date) (window : Nat),
      List.Sorted (fun a b : Analytics.BreakPoint => |b.shift| ≤ |a.shift|)
        (Analytics.compute_breaks df latest window) ∧
      ∀ bp ∈ Analytics.compute_breaks df latest window,
        Analytics.valuesOf
          (df.filter fun r => Analytics.inCurWindow latest window r.TIME_PERIOD)
          bp.country ≠ [] ∧
        Analytics.valuesOf
          (df.filter fun r => Analytics.inPrevWindow latest window r.TIME_PERIOD)
          bp.country ≠ [] ∧
        bp.latest_avg = Analytics.meanQ (Analytics.valuesOf
          (df.filter fun r => Analytics.inCurWindow latest window r.TIME_PERIOD)
          bp.country) ∧
        bp.prev_avg = Analytics.meanQ (Analytics.valuesOf
          (df.filter fun r => Analytics.inPrevWindow latest window r.TIME_PERIOD)
          bp.country) ∧
        bp.shift = bp.latest_avg - bp.prev_avg) ∧
    Analytics.compute_breaks breakDemoDf ⟨2020, 12, 1⟩ 6 =
      [{ country := str2c "A", latest_avg := 15, prev_avg := 5, shift := 10,
         period_label := "Δ6m" }] := by
  constructor
  · intro df latest window
    constructor
    · haveI : IsTotal Analytics.BreakPoint
          (fun a b : Analytics.BreakPoint => |b.shift| ≤ |a.shift|) :=
        ⟨fun a b => le_total _ _⟩
      haveI : IsTrans Analytics.BreakPoint
          (fun a b : Analytics.BreakPoint => |b.shift| ≤ |a.shift|) :=
        ⟨fun _ _ _ h1 h2 => le_trans h2 h1⟩
      exact List.sorted_insertionSort _ _
    · intro bp hbp
      unfold Analytics.compute_breaks at hbp
      rw [List.mem_insertionSort] at hbp
      rcases List.mem_filterMap.mp hbp with ⟨c, hc, hf⟩
      by_cases hprev : (Analytics.valuesOf
          (df.filter fun r => Analytics.inPrevWindow latest window r.TIME_PERIOD)
          c).isEmpty = true
      · rw [if_pos hprev] at hf
        exact absurd hf (by simp)
      · rw [if_neg hprev] at hf
        cases hf
        refine ⟨?_, ?_, rfl, rfl, rfl⟩
        · exact valuesOf_ne_nil _ c (mem_uniqueSorted.mp hc)
        · intro hnil
          rw [hnil] at hprev
          exact hprev rfl
  · have hu : Analytics.uniqueSorted
        ((breakDemoDf.filter fun r =>
          Analytics.inCurWindow ⟨2020, 12, 1⟩ 6 r.TIME_PERIOD).map
            (·.REF_AREA_LABEL)) = [str2c "A"] := by decide
    have hvc : Analytics.valuesOf
        (breakDemoDf.filter fun r =>
          Analytics.inCurWindow ⟨2020, 12, 1⟩ 6 r.TIME_PERIOD) (str2c "A") =
        [15, 15, 15, 15, 15, 15] := by decide
    have hvp : Analytics.valuesOf
        (breakDemoDf.filter fun r =>
          Analytics.inPrevWindow ⟨2020, 12, 1⟩ 6 r.TIME_PERIOD) (str2c "A") =
        [5, 5, 5, 5, 5, 5] := by decide
    have hmc : Analytics.meanQ [15, 15, 15, 15, 15, 15] = (15 : ℚ) := by
      norm_num [Analytics.meanQ]
    have hmp : Analytics.meanQ [5, 5, 5, 5, 5, 5] = (5 : ℚ) := by
      norm_num [Analytics.meanQ]
    simp only [Analytics.compute_breaks]
    rw [hu]
    simp only [List.filterMap_cons, List.filterMap_nil, hvc, hvp, hmc, hmp]
    norm_num [List.insertionSort, List.orderedInsert]
    decide

/-- Witness for C4's per-break facts at the synthetic series: the reported
break for country A has both windows populated. -/
theorem compute_breaks_spec_witness :
    Analytics.valuesOf
      (breakDemoDf.filter fun r =>
        Analytics.inCurWindow ⟨2020, 12, 1⟩ 6 r.TIME_PERIOD) (str2c "A") ≠ [] ∧
    Analytics.valuesOf
      (breakDemoDf.filter fun r =>
        Analytics.inPrevWindow ⟨2020, 12, 1⟩ 6 r.TIME_PERIOD) (str2c "A") ≠ [] := by
  have hmem : ({ country := str2c "A", latest_avg := 15, prev_avg := 5,
                 shift := 10, period_label := "Δ6m" } : Analytics.BreakPoint) ∈
      Analytics.compute_breaks breakDemoDf ⟨2020, 12, 1⟩ 6 := by
    rw [compute_breaks_spec.2]
    exact List.mem_singleton_self _
  have h := (compute_breaks_spec.1 breakDemoDf ⟨2020, 12, 1⟩ 6).2 _ hmem
  exact ⟨h.1, h.2.1⟩

/-! ## C7: rolling volatility minimum window -/

/-- C7: `compute_volatility` emits a number at a position iff the trailing
window there holds at least 3 observations; with fewer it emits `none`
(pandas `NaN`), and with enough it emits exactly the std of that window. -/
theorem compute_volatility_min_periods :
    ∀ (df : List ObsRow) (window : Nat),
      ∀ row ∈ Analytics.compute_volatility df window,
        (row.volatility.isSome = true ↔
          3 ≤ (Analytics.trailingWindow df window row.REF_AREA_LABEL row.idx).length) ∧
        row.volatility =
          (if 3 ≤ (Analytics.trailingWindow df window row.REF_AREA_LABEL row.idx).length
           then some (Analytics.pandasStd
             (Analytics.trailingWindow df window row.REF_AREA_LABEL row.idx))
           else none) := by
  intro df window row hrow
  unfold Analytics.compute_volatility at hrow
  rcases List.mem_flatMap.mp hrow with ⟨c, _, hr⟩
  rcases List.mem_map.mp hr with ⟨i, _, rfl⟩
  by_cases h : (Analytics.trailingWindow df window c i).length < 3
  · constructor
    · simp [h, Nat.not_le.mpr h]
    · simp [h, if_neg (Nat.not_le.mpr h)]
  · have h3 : 3 ≤ (Analytics.trailingWindow df window c i).length := Nat.not_lt.mp h
    constructor
    · simp [h, h3]
    · simp [h, if_pos h3]

/-- Four monthly observations of one country, for exercising the
`min_periods=3` rule. -/
def volDemoDf : List ObsRow :=
  (List.range 4).map fun i =>
    { REF_AREA := str2c "AAA"
      REF_AREA_LABEL := str2c "A"
      region := str2c "X"
      TIME_PERIOD := ⟨2020, i + 1, 1⟩
      OBS_VALUE := (i : ℚ) }

/-- Witness for C7: at position 0 the trailing window has 1 < 3
observations, and the emitted cell is `none`. -/
theorem compute_volatility_min_periods_witness :
    (({ REF_AREA_LABEL := str2c "A", idx := 0, volatility := none } :
        Analytics.VolRow).volatility.isSome = true ↔
      3 ≤ (Analytics.trailingWindow volDemoDf 12 (str2c "A") 0).length) := by
  have hlt : (Analytics.trailingWindow volDemoDf 12 (str2c "A") 0).length < 3 := by
    decide
  have hmem : ({ REF_AREA_LABEL := str2c "A", idx := 0, volatility := none } :
                  Analytics.VolRow) ∈ Analytics.compute_volatility volDemoDf 12 := by
    unfold Analytics.compute_volatility
    refine List.mem_flatMap.mpr ⟨str2c "A", by decide, ?_⟩
    refine List.mem_map.mpr ⟨0, by decide, ?_⟩
    simp [hlt]
  exact (compute_volatility_min_periods volDemoDf 12 _ hmem).1

/-! ## C8: degenerate conditions in the aggregation engine -/

/-- C8: the distribution summary is the empty dict exactly when the period
slice has no rows; the hotspot table is empty exactly when the slice is
empty; and each emitted region row's share is `high/countries·100`, which
is `0` whenever no country in the region meets the threshold (never a
division error: the `ℚ` convention `x/0 = 0` agrees with `.fillna(0)`). -/
theorem aggregation_degenerate_totality :
    ∀ (df : List ObsRow) (latest : Date) (t : ℚ),
      (Analytics.summarize_distribution df latest = none ↔
        Analytics.periodSlice df latest = []) ∧
      (Analytics.regional_share df latest t = [] ↔
        Analytics.periodSlice df latest = []) ∧
      ∀ rs ∈ Analytics.regional_share df latest t,
        rs.share = (rs.high : ℚ) / (rs.countries : ℚ) * 100 ∧
        (rs.high = 0 → rs.share = 0) := by
  intro df latest t
  refine ⟨?_, ?_, ?_⟩
  · by_cases h : Analytics.periodSlice df latest = [] <;>
      simp [Analytics.summarize_distribution, List.isEmpty_iff,
        List.map_eq_nil_iff, h]
  · by_cases h : Analytics.periodSlice df latest = []
    · simp [Analytics.regional_share, List.isEmpty_iff, h]
    · have h1 : (Analytics.periodSlice df latest).map (·.region) ≠ [] := by
        simpa [List.map_eq_nil_iff] using h
      have h2 : ((Analytics.periodSlice df latest).map (·.region)).dedup ≠ [] := by
        rwa [Ne, List.dedup_eq_nil]
      have h3 : Analytics.uniqueSorted
          ((Analytics.periodSlice df latest).map (·.region)) ≠ [] := by
        unfold Analytics.uniqueSorted
        intro hh
        apply h2
        have hlen := congrArg List.length hh
        rw [List.length_insertionSort] at hlen
        exact List.length_eq_zero.mp hlen
      simp only [Analytics.regional_share, List.isEmpty_iff, h, if_false]
      simp [List.map_eq_nil_iff, h3]
  · intro rs hrs
    simp only [Analytics.regional_share] at hrs
    by_cases h : (Analytics.periodSlice df latest).isEmpty = true
    · rw [if_pos h] at hrs
      exact absurd hrs (List.not_mem_nil rs)
    · rw [if_neg h] at hrs
      rcases List.mem_map.mp hrs with ⟨g, _, heq⟩
      have hf : rs.share = (rs.high : ℚ) / (rs.countries : ℚ) * 100 := by
        rw [← heq]
      refine ⟨hf, ?_⟩
      intro h0
      rw [hf, h0]
      simp

/-- Witness for C8 at a one-row slice in which no country meets the
threshold: the region's share is 0. -/
theorem aggregation_degenerate_totality_witness :
    ({ region := str2c "R1", countries := 1, high := 0,
       share := ((0 : Nat) : ℚ) / ((1 : Nat) : ℚ) * 100 } :
       Analytics.RegionShare).share = 0 := by
  have hmem : ({ region := str2c "R1", countries := 1, high := 0,
                 share := ((0 : Nat) : ℚ) / ((1 : Nat) : ℚ) * 100 } :
                 Analytics.RegionShare) ∈
      Analytics.regional_share
        [{ REF_AREA := str2c "AAA", REF_AREA_LABEL := str2c "A",
           region := str2c "R1", TIME_PERIOD := ⟨2020, 1, 1⟩,
           OBS_VALUE := 1 }] ⟨2020, 1, 1⟩ 5 := by
    have hlist : Analytics.regional_share
        [{ REF_AREA := str2c "AAA", REF_AREA_LABEL := str2c "A",
           region := str2c "R1", TIME_PERIOD := ⟨2020, 1, 1⟩,
           OBS_VALUE := 1 }] ⟨2020, 1, 1⟩ 5 =
        [{ region := str2c "R1", countries := 1, high := 0,
           share := ((0 : Nat) : ℚ) / ((1 : Nat) : ℚ) * 100 }] := rfl
    rw [hlist]
    exact List.mem_singleton_self _
  exact ((aggregation_degenerate_totality _ ⟨2020, 1, 1⟩ 5).2.2 _ hmem).2 rfl

/-! ## C3: risk scores and min-max normalization -/

namespace Risk

theorem le_foldl_max {α : Type} [LinearOrderedField α] :
    ∀ (xs : List α) (a : α), a ≤ xs.foldl max a
  | [], a => le_refl a
  | x :: xs, a => le_trans (le_max_left a x) (le_foldl_max xs (max a x))

theorem mem_le_foldl_max {α : Type} [LinearOrderedField α] :
    ∀ (xs : List α) (a x : α), x ∈ xs → x ≤ xs.foldl max a
  | y :: ys, a, x, h => by
      rcases List.mem_cons.mp h with rfl | h'
      · exact le_trans (le_max_right a x) (le_foldl_max ys (max a x))
      · exact mem_le_foldl_max ys (max a y) x h'

theorem mem_le_listMax {α : Type} [LinearOrderedField α] {x : α} {l : List α}
    (h : x ∈ l) : x ≤ listMax l := by
  cases l with
  | nil => exact absurd h (List.not_mem_nil x)
  | cons a as =>
      rcases List.mem_cons.mp h with rfl | h'
      · exact le_foldl_max as x
      · exact mem_le_foldl_max as a x h'

theorem foldl_min_le {α : Type} [LinearOrderedField α] :
    ∀ (xs : List α) (a : α), xs.foldl min a ≤ a
  | [], a => le_refl a
  | x :: xs, a => le_trans (foldl_min_le xs (min a x)) (min_le_left a x)

theorem foldl_min_le_mem {α : Type} [LinearOrderedField α] :
    ∀ (xs : List α) (a x : α), x ∈ xs → xs.foldl min a ≤ x
  | y :: ys, a, x, h => by
      rcases List.mem_cons.mp h with rfl | h'
      · exact le_trans (foldl_min_le ys (min a x)) (min_le_right a x)
      · exact foldl_min_le_mem ys (min a y) x h'

theorem listMin_le_mem {α : Type} [LinearOrderedField α] {x : α} {l : List α}
    (h : x ∈ l) : listMin l ≤ x := by
  cases l with
  | nil => exact absurd h (List.not_mem_nil x)
  | cons a as =>
      rcases List.mem_cons.mp h with rfl | h'
      · exact foldl_min_le as x
      · exact foldl_min_le_mem as a x h'

theorem foldl_max_mem {α : Type} [LinearOrderedField α] :
    ∀ (xs : List α) (a : α), xs.foldl max a ∈ a :: xs
  | [], a => List.mem_singleton_self a
  | x :: xs, a => by
      have h := foldl_max_mem xs (max a x)
      simp only [List.foldl_cons]
      rcases List.mem_cons.mp h with heq | hmem
      · rw [heq]
        rcases max_choice a x with h1 | h1 <;> rw [h1] <;> simp
      · exact List.mem_cons_of_mem a (List.mem_cons_of_mem x hmem)

theorem foldl_min_mem {α : Type} [LinearOrderedField α] :
    ∀ (xs : List α) (a : α), xs.foldl min a ∈ a :: xs
  | [], a => List.mem_singleton_self a
  | x :: xs, a => by
      have h := foldl_min_mem xs (min a x)
      simp only [List.foldl_cons]
      rcases List.mem_cons.mp h with heq | hmem
      · rw [heq]
        rcases min_choice a x with h1 | h1 <;> rw [h1] <;> simp
      · exact List.mem_cons_of_mem a (List.mem_cons_of_mem x hmem)

theorem listMax_mem {α : Type} [LinearOrderedField α] {l : List α}
    (h : l ≠ []) : listMax l ∈ l := by
  cases l with
  | nil => exact absurd rfl h
  | cons a as => exact foldl_max_mem as a

theorem listMin_mem {α : Type} [LinearOrderedField α] {l : List α}
    (h : l ≠ []) : listMin l ∈ l := by
  cases l with
  | nil => exact absurd rfl h
  | cons a as => exact foldl_min_mem as a

/-- Stripping the `PFloat` wrapper from an all-numeric series. -/
theorem floatVals_map_val : ∀ l : List ℝ, floatVals (l.map PFloat.val) = l
  | [] => rfl
  | x :: xs => by
      show x :: floatVals (xs.map PFloat.val) = x :: xs
      rw [floatVals_map_val xs]

theorem fmaxList_map_val (l : List ℝ) (h : l ≠ []) :
    fmaxList (l.map PFloat.val) = PFloat.val (listMax l) := by
  unfold fmaxList
  rw [floatVals_map_val]
  rw [if_neg fun hc => h (List.isEmpty_iff.mp hc)]

theorem fminList_map_val (l : List ℝ) (h : l ≠ []) :
    fminList (l.map PFloat.val) = PFloat.val (listMin l) := by
  unfold fminList
  rw [floatVals_map_val]
  rw [if_neg fun hc => h (List.isEmpty_iff.mp hc)]

/-- On an all-numeric series, min-max normalization maps every entry into
`[0, 1]`. -/
theorem normalize_val_bounds (l : List ℝ) :
    ∀ x ∈ normalize (l.map PFloat.val), inUnitInterval x := by
  intro x hx
  cases l with
  | nil =>
      unfold normalize at hx
      split at hx <;> simp at hx
  | cons a as =>
      have hne : (a :: as) ≠ ([] : List ℝ) := List.cons_ne_nil a as
      unfold normalize at hx
      rw [fmaxList_map_val _ hne, fminList_map_val _ hne] at hx
      by_cases hMm : listMax (a :: as) = listMin (a :: as)
      · rw [if_pos (by simp [PFloat.feq, hMm])] at hx
        rcases List.mem_map.mp hx with ⟨_, _, rfl⟩
        exact ⟨0, rfl, le_refl 0, by norm_num⟩
      · rw [if_neg (by simp [PFloat.feq, hMm])] at hx
        rcases List.mem_map.mp hx with ⟨p, hp, rfl⟩
        rcases List.mem_map.mp hp with ⟨y, hy, rfl⟩
        have h1 : listMin (a :: as) ≤ y := listMin_le_mem hy
        have h2 : y ≤ listMax (a :: as) := mem_le_listMax hy
        have h3 : listMin (a :: as) < listMax (a :: as) :=
          lt_of_le_of_ne (le_trans h1 h2) fun he => hMm he.symm
        have hden : listMax (a :: as) - listMin (a :: as) ≠ 0 :=
          ne_of_gt (by linarith)
        refine ⟨(y - listMin (a :: as)) / (listMax (a :: as) - listMin (a :: as)),
          ?_, ?_, ?_⟩
        · show PFloat.div (PFloat.val (y - listMin (a :: as)))
            (PFloat.val (listMax (a :: as) - listMin (a :: as))) = _
          simp only [PFloat.div]
          rw [if_neg hden]
        · exact div_nonneg (by linarith) (by linarith)
        · rw [div_le_one (by linarith)]
          linarith

/-- Degenerate all-numeric population: if every entry is equal,
normalization returns 0 for everyone. -/
theorem normalize_val_all_equal (l : List ℝ) (h : ∀ x ∈ l, ∀ y ∈ l, x = y) :
    ∀ z ∈ normalize (l.map PFloat.val), z = PFloat.val 0 := by
  intro z hz
  cases l with
  | nil =>
      unfold normalize at hz
      split at hz <;> simp at hz
  | cons a as =>
      have hne : (a :: as) ≠ ([] : List ℝ) := List.cons_ne_nil a as
      have hMm : listMax (a :: as) = listMin (a :: as) :=
        h _ (listMax_mem hne) _ (listMin_mem hne)
      unfold normalize at hz
      rw [fmaxList_map_val _ hne, fminList_map_val _ hne] at hz
      rw [if_pos (by simp [PFloat.feq, hMm])] at hz
      rcases List.mem_map.mp hz with ⟨_, _, rfl⟩
      rfl

theorem normalize_length (l : List PFloat) : (normalize l).length = l.length := by
  unfold normalize
  split <;> rw [List.length_map]

/-- The mean column as plain reals (defined for populations whose groups
are all nonempty). -/
noncomputable def realMeans (df : List ObsRow) : List ℝ :=
  (riskCountries df).map fun c => ((Analytics.meanQ (historyOf df c) : ℚ) : ℝ)

/-- The std column as plain reals (defined for populations whose groups all
hold at least two observations). -/
noncomputable def realStds (df : List ObsRow) : List ℝ :=
  (riskCountries df).map fun c => Analytics.pandasStd (historyOf df c)

/-- The range column as plain reals. -/
noncomputable def realRanges (df : List ObsRow) : List ℝ :=
  (riskCountries df).map fun c =>
    ((Analytics.quantileQ (19/20) (historyOf df c) -
      Analytics.quantileQ (1/20) (historyOf df c) : ℚ) : ℝ)

theorem meansCol_eq_map_val (df : List ObsRow)
    (h : ∀ c ∈ riskCountries df, historyOf df c ≠ []) :
    meansCol df = (realMeans df).map PFloat.val := by
  unfold meansCol realMeans
  rw [List.map_map]
  refine List.map_congr_left fun c hc => ?_
  unfold groupMean
  rw [if_neg fun hc' => h c hc (List.isEmpty_iff.mp hc')]
  rfl

theorem volsCol_eq_map_val (df : List ObsRow)
    (h : ∀ c ∈ riskCountries df, 2 ≤ (historyOf df c).length) :
    volsCol df = (realStds df).map PFloat.val := by
  unfold volsCol realStds
  rw [List.map_map]
  refine List.map_congr_left fun c hc => ?_
  unfold groupStd
  rw [if_neg (Nat.not_lt.mpr (h c hc))]
  rfl

theorem rangesCol_eq_map_val (df : List ObsRow)
    (h : ∀ c ∈ riskCountries df, historyOf df c ≠ []) :
    rangesCol df = (realRanges df).map PFloat.val := by
  unfold rangesCol realRanges
  rw [List.map_map]
  refine List.map_congr_left fun c hc => ?_
  unfold groupRange
  rw [if_neg fun hc' => h c hc (List.isEmpty_iff.mp hc')]
  rfl

end Risk

/-- `Series.quantile(q)` with linear interpolation on a sorted pair. -/
theorem quantile_pair (q a b : ℚ) (hab : a ≤ b) (h0 : 0 ≤ q) (h1 : q < 1) :
    Analytics.quantileQ q [a, b] = a + q * (b - a) := by
  have hs : ([a, b] : List ℚ).insertionSort (· ≤ ·) = [a, b] := by
    simp [List.insertionSort, List.orderedInsert, hab]
  have hpos : q * (((2 : Nat) : ℚ) - 1) = q := by norm_num
  have hf : (⌊q * (((2 : Nat) : ℚ) - 1)⌋ : ℤ) = 0 := by
    rw [hpos, Int.floor_eq_zero_iff]
    exact ⟨h0, h1⟩
  simp only [Analytics.quantileQ, hs, List.length_cons, List.length_nil]
  rw [hf, hpos]
  norm_num

/-- A population in which country A has a single observation: its
`Series.std()` is `NaN`.  Countries B and C have two observations each with
differing means, (numeric) volatilities and ranges. -/
def nanDemoDf : List ObsRow :=
  [{ REF_AREA := str2c "AAA", REF_AREA_LABEL := str2c "A", region := str2c "X",
     TIME_PERIOD := ⟨2020, 1, 1⟩, OBS_VALUE := 1 },
   { REF_AREA := str2c "BBB", REF_AREA_LABEL := str2c "B", region := str2c "X",
     TIME_PERIOD := ⟨2020, 1, 1⟩, OBS_VALUE := 0 },
   { REF_AREA := str2c "BBB", REF_AREA_LABEL := str2c "B", region := str2c "X",
     TIME_PERIOD := ⟨2020, 2, 1⟩, OBS_VALUE := 4 },
   { REF_AREA := str2c "CCC", REF_AREA_LABEL := str2c "C", region := str2c "X",
     TIME_PERIOD := ⟨2020, 1, 1⟩, OBS_VALUE := 0 },
   { REF_AREA := str2c "CCC", REF_AREA_LABEL := str2c "C", region := str2c "X",
     TIME_PERIOD := ⟨2020, 2, 1⟩, OBS_VALUE := 8 }]

/-- C3 counterexample: at `nanDemoDf` the population has ≥ 2 countries with
differing means, differing (numeric) volatilities and differing ranges —
the claim's hypotheses — yet country A's normalized volatility is `NaN`
(not a number at all, in particular not in `[0, 1]`), because `std` of its
single observation is `NaN` and `normalize` propagates it.  The claimed
bounds on every normalized component are false on the program. -/
theorem risk_bounds_nan_counterexample :
    2 ≤ (Risk.riskCountries nanDemoDf).length ∧
    (∃ a ∈ Risk.meansCol nanDemoDf, ∃ b ∈ Risk.meansCol nanDemoDf, a ≠ b) ∧
    (∃ a ∈ Risk.volsCol nanDemoDf, ∃ b ∈ Risk.volsCol nanDemoDf, a ≠ b) ∧
    (∃ a ∈ Risk.rangesCol nanDemoDf, ∃ b ∈ Risk.rangesCol nanDemoDf, a ≠ b) ∧
    ∃ x ∈ Risk.normalize (Risk.volsCol nanDemoDf),
      ∀ y : ℝ, x ≠ Risk.PFloat.val y := by
  have hvolsB : 0 < Analytics.pandasStd [0, 4] := by
    unfold Analytics.pandasStd
    have hvar : Analytics.sampleVarQ [0, 4] = 8 := by
      norm_num [Analytics.sampleVarQ, Analytics.meanQ]
    rw [hvar, Real.sqrt_pos]
    norm_num
  have hvolsBC : Analytics.pandasStd [0, 4] < Analytics.pandasStd [0, 8] := by
    unfold Analytics.pandasStd
    have hvarB : Analytics.sampleVarQ [0, 4] = 8 := by
      norm_num [Analytics.sampleVarQ, Analytics.meanQ]
    have hvarC : Analytics.sampleVarQ [0, 8] = 32 := by
      norm_num [Analytics.sampleVarQ, Analytics.meanQ]
    rw [hvarB, hvarC]
    refine Real.sqrt_lt_sqrt (by norm_num) ?_
    norm_num
  refine ⟨by decide, ?_, ?_, ?_, ?_⟩
  · -- means differ (countries B and C)
    have hcol : Risk.meansCol nanDemoDf =
        [Risk.groupMean [1], Risk.groupMean [0, 4], Risk.groupMean [0, 8]] := rfl
    have hmB : Risk.groupMean [0, 4] = Risk.PFloat.val ((2 : ℚ) : ℝ) := by
      unfold Risk.groupMean
      rw [if_neg (by decide)]
      norm_num [Analytics.meanQ]
    have hmC : Risk.groupMean [0, 8] = Risk.PFloat.val ((4 : ℚ) : ℝ) := by
      unfold Risk.groupMean
      rw [if_neg (by decide)]
      norm_num [Analytics.meanQ]
    rw [hcol]
    refine ⟨_, List.mem_cons_of_mem _ (List.mem_cons_self _ _), _,
      List.mem_cons_of_mem _ (List.mem_cons_of_mem _ (List.mem_cons_self _ _)),
      ?_⟩
    rw [hmB, hmC]
    intro he
    have := Risk.PFloat.val.inj he
    norm_num at this
  · -- volatilities differ (countries B and C, both numeric)
    have hcol : Risk.volsCol nanDemoDf =
        [Risk.PFloat.nan, Risk.PFloat.val (Analytics.pandasStd [0, 4]),
         Risk.PFloat.val (Analytics.pandasStd [0, 8])] := rfl
    rw [hcol]
    refine ⟨_, List.mem_cons_of_mem _ (List.mem_cons_self _ _), _,
      List.mem_cons_of_mem _ (List.mem_cons_of_mem _ (List.mem_cons_self _ _)),
      ?_⟩
    intro he
    exact absurd (Risk.PFloat.val.inj he) (ne_of_lt hvolsBC)
  · -- ranges differ (countries B and C)
    have hcol : Risk.rangesCol nanDemoDf =
        [Risk.groupRange [1], Risk.groupRange [0, 4], Risk.groupRange [0, 8]] :=
      rfl
    have hrB : Risk.groupRange [0, 4] = Risk.PFloat.val ((18/5 : ℚ) : ℝ) := by
      unfold Risk.groupRange
      rw [if_neg (by decide)]
      rw [quantile_pair _ _ _ (by norm_num) (by norm_num) (by norm_num),
        quantile_pair _ _ _ (by norm_num) (by norm_num) (by norm_num)]
      norm_num
    have hrC : Risk.groupRange [0, 8] = Risk.PFloat.val ((36/5 : ℚ) : ℝ) := by
      unfold Risk.groupRange
      rw [if_neg (by decide)]
      rw [quantile_pair _ _ _ (by norm_num) (by norm_num) (by norm_num),
        quantile_pair _ _ _ (by norm_num) (by norm_num) (by norm_num)]
      norm_num
    rw [hcol]
    refine ⟨_, List.mem_cons_of_mem _ (List.mem_cons_self _ _), _,
      List.mem_cons_of_mem _ (List.mem_cons_of_mem _ (List.mem_cons_self _ _)),
      ?_⟩
    rw [hrB, hrC]
    intro he
    have := Risk.PFloat.val.inj he
    norm_num at this
  · -- country A's normalized volatility is NaN
    have hcol : Risk.volsCol nanDemoDf =
        [Risk.PFloat.nan, Risk.PFloat.val (Analytics.pandasStd [0, 4]),
         Risk.PFloat.val (Analytics.pandasStd [0, 8])] := rfl
    have hfv : Risk.floatVals (Risk.volsCol nanDemoDf) =
        [Analytics.pandasStd [0, 4], Analytics.pandasStd [0, 8]] := rfl
    have hmax : Risk.fmaxList (Risk.volsCol nanDemoDf) =
        Risk.PFloat.val (Analytics.pandasStd [0, 8]) := by
      unfold Risk.fmaxList
      rw [hfv]
      have : Risk.listMax [Analytics.pandasStd [0, 4], Analytics.pandasStd [0, 8]] =
          Analytics.pandasStd [0, 8] := by
        show max (Analytics.pandasStd [0, 4]) (Analytics.pandasStd [0, 8]) = _
        exact max_eq_right (le_of_lt hvolsBC)
      rw [this]
      rfl
    have hmin : Risk.fminList (Risk.volsCol nanDemoDf) =
        Risk.PFloat.val (Analytics.pandasStd [0, 4]) := by
      unfold Risk.fminList
      rw [hfv]
      have : Risk.listMin [Analytics.pandasStd [0, 4], Analytics.pandasStd [0, 8]] =
          Analytics.pandasStd [0, 4] := by
        show min (Analytics.pandasStd [0, 4]) (Analytics.pandasStd [0, 8]) = _
        exact min_eq_left (le_of_lt hvolsBC)
      rw [this]
      rfl
    have hfeq : Risk.PFloat.feq (Risk.fmaxList (Risk.volsCol nanDemoDf))
        (Risk.fminList (Risk.volsCol nanDemoDf)) = false := by
      rw [hmax, hmin]
      unfold Risk.PFloat.feq
      exact decide_eq_false (ne_of_gt hvolsBC)
    refine ⟨Risk.PFloat.nan, ?_, ?_⟩
    · unfold Risk.normalize
      rw [if_neg (by rw [hfeq]; exact Bool.false_ne_true)]
      refine List.mem_map.mpr ⟨Risk.PFloat.nan, ?_, rfl⟩
      rw [hcol]
      exact List.mem_cons_self _ _
    · intro y he
      exact Risk.PFloat.noConfusion he

/-- C3 (amended): the risk computation min-max normalizes each metric
column onto `[0, 1]` over the country population (all-zero when a numeric
column is constant), composes the score as `0.40·norm(mean) +
0.35·norm(volatility) + 0.25·norm(range)`, and — for a population of at
least two countries **in which every country's history holds at least two
observations** (so no volatility is `NaN`) with differing means,
volatilities and ranges — every normalized component and every composite
score is a number in `[0, 1]`. -/
theorem risk_score_normalization_bounds :
    (∀ l : List ℝ, (∀ x ∈ l, ∀ y ∈ l, x = y) →
      ∀ z ∈ Risk.normalize (l.map Risk.PFloat.val), z = Risk.PFloat.val 0) ∧
    ∀ df : List ObsRow,
      2 ≤ (Risk.riskCountries df).length →
      (∀ c ∈ Risk.riskCountries df, 2 ≤ (Risk.historyOf df c).length) →
      (∃ a ∈ Risk.meansCol df, ∃ b ∈ Risk.meansCol df, a ≠ b) →
      (∃ a ∈ Risk.volsCol df, ∃ b ∈ Risk.volsCol df, a ≠ b) →
      (∃ a ∈ Risk.rangesCol df, ∃ b ∈ Risk.rangesCol df, a ≠ b) →
      (∀ x ∈ Risk.normalize (Risk.meansCol df), Risk.inUnitInterval x) ∧
      (∀ x ∈ Risk.normalize (Risk.volsCol df), Risk.inUnitInterval x) ∧
      (∀ x ∈ Risk.normalize (Risk.rangesCol df), Risk.inUnitInterval x) ∧
      (∀ i, i < (Risk.riskCountries df).length →
        ((Risk.riskRows df).getD i default).risk_score =
          Risk.PFloat.add
            (Risk.PFloat.add
              (Risk.PFloat.mul
                ((Risk.normalize (Risk.meansCol df)).getD i Risk.PFloat.nan)
                (Risk.PFloat.val 0.4))
              (Risk.PFloat.mul
                ((Risk.normalize (Risk.volsCol df)).getD i Risk.PFloat.nan)
                (Risk.PFloat.val 0.35)))
            (Risk.PFloat.mul
              ((Risk.normalize (Risk.rangesCol df)).getD i Risk.PFloat.nan)
              (Risk.PFloat.val 0.25))) ∧
      ∀ r ∈ Risk.compute_risk_scores df, Risk.inUnitInterval r.risk_score := by
  constructor
  · exact fun l => Risk.normalize_val_all_equal l
  intro df _ h2obs _ _ _
  have hne : ∀ c ∈ Risk.riskCountries df, Risk.historyOf df c ≠ [] := by
    intro c hc hnil
    have := h2obs c hc
    rw [hnil] at this
    simp at this
  have hmcol := Risk.meansCol_eq_map_val df hne
  have hvcol := Risk.volsCol_eq_map_val df h2obs
  have hrcol := Risk.rangesCol_eq_map_val df hne
  have hlen_m : (Risk.normalize (Risk.meansCol df)).length =
      (Risk.riskCountries df).length := by
    rw [Risk.normalize_length]
    unfold Risk.meansCol
    exact List.length_map _ _
  have hlen_v : (Risk.normalize (Risk.volsCol df)).length =
      (Risk.riskCountries df).length := by
    rw [Risk.normalize_length]
    unfold Risk.volsCol
    exact List.length_map _ _
  have hlen_r : (Risk.normalize (Risk.rangesCol df)).length =
      (Risk.riskCountries df).length := by
    rw [Risk.normalize_length]
    unfold Risk.rangesCol
    exact List.length_map _ _
  have hbm : ∀ x ∈ Risk.normalize (Risk.meansCol df), Risk.inUnitInterval x := by
    rw [hmcol]
    exact Risk.normalize_val_bounds _
  have hbv : ∀ x ∈ Risk.normalize (Risk.volsCol df), Risk.inUnitInterval x := by
    rw [hvcol]
    exact Risk.normalize_val_bounds _
  have hbr : ∀ x ∈ Risk.normalize (Risk.rangesCol df), Risk.inUnitInterval x := by
    rw [hrcol]
    exact Risk.normalize_val_bounds _
  have hrows : ∀ i, i < (Risk.riskCountries df).length →
      ((Risk.riskRows df).getD i default).risk_score =
        Risk.PFloat.add
          (Risk.PFloat.add
            (Risk.PFloat.mul
              ((Risk.normalize (Risk.meansCol df)).getD i Risk.PFloat.nan)
              (Risk.PFloat.val 0.4))
            (Risk.PFloat.mul
              ((Risk.normalize (Risk.volsCol df)).getD i Risk.PFloat.nan)
              (Risk.PFloat.val 0.35)))
          (Risk.PFloat.mul
            ((Risk.normalize (Risk.rangesCol df)).getD i Risk.PFloat.nan)
            (Risk.PFloat.val 0.25)) := by
    intro i hi
    have hlen : i < (Risk.riskRows df).length := by
      unfold Risk.riskRows
      rw [List.length_map, List.length_range]
      exact hi
    rw [List.getD_eq_getElem _ _ hlen]
    unfold Risk.riskRows
    rw [List.getElem_map]
    rw [List.getElem_range]
  refine ⟨hbm, hbv, hbr, hrows, ?_⟩
  intro r hr
  unfold Risk.compute_risk_scores at hr
  rw [List.mem_insertionSort] at hr
  unfold Risk.riskRows at hr
  rcases List.mem_map.mp hr with ⟨i, hi, rfl⟩
  rw [List.mem_range] at hi
  have hgm : (Risk.normalize (Risk.meansCol df)).getD i Risk.PFloat.nan ∈
      Risk.normalize (Risk.meansCol df) := by
    have hi' : i < (Risk.normalize (Risk.meansCol df)).length := by
      rw [hlen_m]; exact hi
    rw [List.getD_eq_getElem _ _ hi']
    exact List.getElem_mem hi'
  have hgv : (Risk.normalize (Risk.volsCol df)).getD i Risk.PFloat.nan ∈
      Risk.normalize (Risk.volsCol df) := by
    have hi' : i < (Risk.normalize (Risk.volsCol df)).length := by
      rw [hlen_v]; exact hi
    rw [List.getD_eq_getElem _ _ hi']
    exact List.getElem_mem hi'
  have hgr : (Risk.normalize (Risk.rangesCol df)).getD i Risk.PFloat.nan ∈
      Risk.normalize (Risk.rangesCol df) := by
    have hi' : i < (Risk.normalize (Risk.rangesCol df)).length := by
      rw [hlen_r]; exact hi
    rw [List.getD_eq_getElem _ _ hi']
    exact List.getElem_mem hi'
  rcases hbm _ hgm with ⟨a, ha, ha0, ha1⟩
  rcases hbv _ hgv with ⟨b, hb, hb0, hb1⟩
  rcases hbr _ hgr with ⟨c, hc, hc0, hc1⟩
  show Risk.inUnitInterval (Risk.PFloat.add
    (Risk.PFloat.add
      (Risk.PFloat.mul ((Risk.normalize (Risk.meansCol df)).getD i Risk.PFloat.nan)
        (Risk.PFloat.val 0.4))
      (Risk.PFloat.mul ((Risk.normalize (Risk.volsCol df)).getD i Risk.PFloat.nan)
        (Risk.PFloat.val 0.35)))
    (Risk.PFloat.mul ((Risk.normalize (Risk.rangesCol df)).getD i Risk.PFloat.nan)
      (Risk.PFloat.val 0.25)))
  rw [ha, hb, hc]
  refine ⟨a * 0.4 + b * 0.35 + c * 0.25, rfl, ?_, ?_⟩
  · nlinarith
  · nlinarith

/-- A two-country population in which both countries carry two
observations, with differing means, volatilities and ranges. -/
def riskDemoDf : List ObsRow :=
  [{ REF_AREA := str2c "AAA", REF_AREA_LABEL := str2c "A", region := str2c "X",
     TIME_PERIOD := ⟨2020, 1, 1⟩, OBS_VALUE := 1 },
   { REF_AREA := str2c "AAA", REF_AREA_LABEL := str2c "A", region := str2c "X",
     TIME_PERIOD := ⟨2020, 2, 1⟩, OBS_VALUE := 1 },
   { REF_AREA := str2c "BBB", REF_AREA_LABEL := str2c "B", region := str2c "X",
     TIME_PERIOD := ⟨2020, 1, 1⟩, OBS_VALUE := 0 },
   { REF_AREA := str2c "BBB", REF_AREA_LABEL := str2c "B", region := str2c "X",
     TIME_PERIOD := ⟨2020, 2, 1⟩, OBS_VALUE := 4 }]

/-- Witness for the amended C3 theorem: the degenerate rule at the constant
population `[5, 5]`, and the unit-interval bound for the first normalized
mean component of the concrete two-country population `riskDemoDf`. -/
theorem risk_score_normalization_bounds_witness :
    Risk.PFloat.val 0 = Risk.PFloat.val 0 ∧
    Risk.inUnitInterval
      ((Risk.normalize (Risk.meansCol riskDemoDf)).getD 0 Risk.PFloat.nan) := by
  constructor
  · -- the degenerate conjunct at the all-equal population [5, 5]
    have hall : ∀ x ∈ [(5 : ℝ), 5], ∀ y ∈ [(5 : ℝ), 5], x = y := by
      intro x hx y hy
      rcases List.mem_cons.mp hx with rfl | hx' <;>
        rcases List.mem_cons.mp hy with rfl | hy' <;>
          simp_all
    have hfv : Risk.floatVals ([(5 : ℝ), 5].map Risk.PFloat.val) = [5, 5] := rfl
    have hmax : Risk.fmaxList ([(5 : ℝ), 5].map Risk.PFloat.val) =
        Risk.PFloat.val 5 := by
      unfold Risk.fmaxList
      rw [hfv]
      have : Risk.listMax [(5 : ℝ), 5] = 5 := by
        show max (5 : ℝ) 5 = 5
        exact max_self 5
      rw [this]
      rfl
    have hmin : Risk.fminList ([(5 : ℝ), 5].map Risk.PFloat.val) =
        Risk.PFloat.val 5 := by
      unfold Risk.fminList
      rw [hfv]
      have : Risk.listMin [(5 : ℝ), 5] = 5 := by
        show min (5 : ℝ) 5 = 5
        exact min_self 5
      rw [this]
      rfl
    have hmem : Risk.PFloat.val 0 ∈
        Risk.normalize ([(5 : ℝ), 5].map Risk.PFloat.val) := by
      unfold Risk.normalize
      rw [if_pos (by rw [hmax, hmin]; unfold Risk.PFloat.feq; exact decide_eq_true rfl)]
      exact List.mem_map.mpr ⟨Risk.PFloat.val 5, by simp, rfl⟩
    exact risk_score_normalization_bounds.1 [(5 : ℝ), 5] hall _ hmem
  · -- the df-level conjunct at riskDemoDf
    have hm1 : Analytics.meanQ [1, 1] = 1 := by norm_num [Analytics.meanQ]
    have hm2 : Analytics.meanQ [0, 4] = 2 := by norm_num [Analytics.meanQ]
    have hmeans : ∃ a ∈ Risk.meansCol riskDemoDf,
        ∃ b ∈ Risk.meansCol riskDemoDf, a ≠ b := by
      have hcol : Risk.meansCol riskDemoDf =
          [Risk.groupMean [1, 1], Risk.groupMean [0, 4]] := rfl
      have hA : Risk.groupMean [1, 1] = Risk.PFloat.val ((1 : ℚ) : ℝ) := by
        unfold Risk.groupMean
        rw [if_neg (by decide), hm1]
      have hB : Risk.groupMean [0, 4] = Risk.PFloat.val ((2 : ℚ) : ℝ) := by
        unfold Risk.groupMean
        rw [if_neg (by decide), hm2]
      rw [hcol]
      refine ⟨_, List.mem_cons_self _ _, _,
        List.mem_cons_of_mem _ (List.mem_cons_self _ _), ?_⟩
      rw [hA, hB]
      intro he
      have := Risk.PFloat.val.inj he
      norm_num at this
    have hvols : ∃ a ∈ Risk.volsCol riskDemoDf,
        ∃ b ∈ Risk.volsCol riskDemoDf, a ≠ b := by
      have hcol : Risk.volsCol riskDemoDf =
          [Risk.PFloat.val (Analytics.pandasStd [1, 1]),
           Risk.PFloat.val (Analytics.pandasStd [0, 4])] := rfl
      have hA : Analytics.pandasStd [1, 1] = 0 := by
        unfold Analytics.pandasStd
        have hvar : Analytics.sampleVarQ [1, 1] = 0 := by
          norm_num [Analytics.sampleVarQ, Analytics.meanQ]
        rw [hvar]
        simp
      have hB : 0 < Analytics.pandasStd [0, 4] := by
        unfold Analytics.pandasStd
        have hvar : Analytics.sampleVarQ [0, 4] = 8 := by
          norm_num [Analytics.sampleVarQ, Analytics.meanQ]
        rw [hvar, Real.sqrt_pos]
        norm_num
      rw [hcol]
      refine ⟨_, List.mem_cons_self _ _, _,
        List.mem_cons_of_mem _ (List.mem_cons_self _ _), ?_⟩
      intro he
      have h0 := Risk.PFloat.val.inj he
      rw [hA] at h0
      exact absurd h0 (ne_of_lt hB)
    have hranges : ∃ a ∈ Risk.rangesCol riskDemoDf,
        ∃ b ∈ Risk.rangesCol riskDemoDf, a ≠ b := by
      have hcol : Risk.rangesCol riskDemoDf =
          [Risk.groupRange [1, 1], Risk.groupRange [0, 4]] := rfl
      have hA : Risk.groupRange [1, 1] = Risk.PFloat.val ((0 : ℚ) : ℝ) := by
        unfold Risk.groupRange
        rw [if_neg (by decide)]
        rw [quantile_pair _ _ _ (by norm_num) (by norm_num) (by norm_num),
          quantile_pair _ _ _ (by norm_num) (by norm_num) (by norm_num)]
        norm_num
      have hB : Risk.groupRange [0, 4] = Risk.PFloat.val ((18/5 : ℚ) : ℝ) := by
        unfold Risk.groupRange
        rw [if_neg (by decide)]
        rw [quantile_pair _ _ _ (by norm_num) (by norm_num) (by norm_num),
          quantile_pair _ _ _ (by norm_num) (by norm_num) (by norm_num)]
        norm_num
      rw [hcol]
      refine ⟨_, List.mem_cons_self _ _, _,
        List.mem_cons_of_mem _ (List.mem_cons_self _ _), ?_⟩
      rw [hA, hB]
      intro he
      have := Risk.PFloat.val.inj he
      norm_num at this
    have hlen : 0 < (Risk.normalize (Risk.meansCol riskDemoDf)).length := by
      rw [Risk.normalize_length]
      show 0 < (Risk.meansCol riskDemoDf).length
      unfold Risk.meansCol
      rw [List.length_map]
      decide
    rw [List.getD_eq_getElem _ _ hlen]
    exact (risk_score_normalization_bounds.2 riskDemoDf (by decide) (by decide)
      hmeans hvols hranges).1 _ (List.getElem_mem hlen)

/-! ## C5: snapshot write atomicity -/

/-- The on-disk states of the target path while `write_parquet`
(src/pipeline.py) runs, at row granularity: `df.to_parquet(processed_path)`
opens the target itself for writing — truncating it — and streams the table
out; there is no temporary file and no atomic rename anywhere in
`write_parquet`.  State `none`/`some rows` is absent file/file holding
`rows`; the trace starts at the prior state `old` and then shows every
prefix of the new table. -/
def write_parquet_trace (old : Option (List CleanRow)) (df : List CleanRow) :
    List (Option (List CleanRow)) :=
  old :: (List.range (df.length + 1)).map fun k => some (df.take k)

/-- Modelled from the spec: the §4.4 all-or-nothing writer design that
`write_parquet` is claimed to implement — write the table to a temporary
location (target unchanged), then atomically replace the target.  Missing
from src/pipeline.py; transcribed from the spec's words for comparison. -/
def write_atomic_trace (old : Option (List CleanRow)) (df : List CleanRow) :
    List (Option (List CleanRow)) :=
  [old, old, some df]

/-- Two enriched rows for exercising the write trace. -/
def rowA : CleanRow := enrich (str2c "AUS", str2c "Australia", ⟨2020, 1, 1⟩, 1)

/-- Another enriched row. -/
def rowB : CleanRow := enrich (str2c "BEL", str2c "Belgium", ⟨2020, 2, 1⟩, 2)

/-- C5 counterexample: writing a two-row table over a previously valid
one-row snapshot passes through an on-disk state that is neither the old
snapshot nor the new table — a partial table *is* left in place of the
prior snapshot if the write fails at that point, so the write is not
all-or-nothing. -/
theorem write_parquet_not_atomic_counterexample :
    ∃ s ∈ write_parquet_trace (some [rowA]) [rowA, rowB],
      s ≠ some [rowA] ∧ s ≠ some [rowA, rowB] := by
  decide

/-- C5 (amended): `write_parquet` writes directly to the target: every
intermediate state is the prior state or a (possibly partial) prefix of the
new table, and the final state is the full new table.  The spec's §4.4
temp-then-rename design (`write_atomic_trace`, modelled from the spec) is
what would make the target show only the old or the new table. -/
theorem write_parquet_trace_spec (old : Option (List CleanRow))
    (df : List CleanRow) :
    ((write_parquet_trace old df).getD (df.length + 1) none = some df) ∧
    (∀ s ∈ write_parquet_trace old df,
      s = old ∨ ∃ k, k ≤ df.length ∧ s = some (df.take k)) ∧
    (∀ s ∈ write_atomic_trace old df, s = old ∨ s = some df) := by
  refine ⟨?_, ?_, ?_⟩
  · show ((List.range (df.length + 1)).map fun k => some (df.take k)).getD
      df.length none = some df
    have hlen : df.length <
        ((List.range (df.length + 1)).map fun k => some (df.take k)).length := by
      rw [List.length_map, List.length_range]
      omega
    rw [List.getD_eq_getElem _ _ hlen, List.getElem_map, List.getElem_range,
      List.take_length]
  · intro s hs
    rcases List.mem_cons.mp hs with rfl | hs'
    · exact Or.inl rfl
    · rcases List.mem_map.mp hs' with ⟨k, hk, rfl⟩
      rw [List.mem_range] at hk
      exact Or.inr ⟨k, by omega, rfl⟩
  · intro s hs
    rcases List.mem_cons.mp hs with rfl | hs'
    · exact Or.inl rfl
    rcases List.mem_cons.mp hs' with rfl | hs''
    · exact Or.inl rfl
    rcases List.mem_cons.mp hs'' with rfl | hs'''
    · exact Or.inr rfl
    · exact absurd hs''' (List.not_mem_nil s)

/-- Witness for the amended C5 theorem: the mid-write state `some [rowA]`
of the concrete trace is a prefix of the new table. -/
theorem write_parquet_trace_spec_witness :
    some [rowA] = (some [rowA] : Option (List CleanRow)) ∨
      ∃ k, k ≤ ([rowA, rowB] : List CleanRow).length ∧
        (some [rowA] : Option (List CleanRow)) = some ([rowA, rowB].take k) := by
  have h := (write_parquet_trace_spec (some [rowA]) [rowA, rowB]).2.1
    (some [rowA]) (by decide)
  exact h

/-! ## C9: snapshot round-trip (columnar persistence) -/

/-- Modelled from the spec: the single columnar snapshot artifact of §4.4.
The parquet engine itself is external to the repository (pandas/pyarrow);
per the spec it stores each column contiguously with its dtype preserved —
in particular the period column as timestamps, not strings.  One typed
column list per column of the enriched table. -/
structure Snapshot where
  col_REF_AREA : List PyStr
  col_REF_AREA_LABEL : List PyStr
  col_TIME_PERIOD : List Date
  col_OBS_VALUE : List ℚ
  col_region : List String
  col_year : List Nat
  col_month : List Nat
  col_quarter : List Nat
  col_year_month : List String
  col_decade : List Nat
  col_era : List String

/-- Modelled from the spec: `df.to_parquet(...)` — serialize the enriched
table column by column with dtypes intact. -/
def to_parquet (df : List CleanRow) : Snapshot :=
  { col_REF_AREA := df.map (·.REF_AREA)
    col_REF_AREA_LABEL := df.map (·.REF_AREA_LABEL)
    col_TIME_PERIOD := df.map (·.TIME_PERIOD)
    col_OBS_VALUE := df.map (·.OBS_VALUE)
    col_region := df.map (·.region)
    col_year := df.map (·.year)
    col_month := df.map (·.month)
    col_quarter := df.map (·.quarter)
    col_year_month := df.map (·.year_month)
    col_decade := df.map (·.decade)
    col_era := df.map (·.era) }

/-- Modelled from the spec: `pd.read_parquet` — reassemble rows from the
typed columns (rows beyond the shortest column cannot exist in a
well-formed artifact; `to_parquet` always writes equal-length columns). -/
def read_parquet : List PyStr → List PyStr → List Date → List ℚ →
    List String → List Nat → List Nat → List Nat → List String → List Nat →
    List String → List CleanRow
  | a :: as, b :: bs, c :: cs, d :: ds, e :: es, f :: fs, g :: gs, h :: hs,
      i :: is', j :: js, k :: ks =>
      { REF_AREA := a, REF_AREA_LABEL := b, TIME_PERIOD := c, OBS_VALUE := d,
        region := e, year := f, month := g, quarter := h, year_month := i,
        decade := j, era := k } ::
        read_parquet as bs cs ds es fs gs hs is' js ks
  | _, _, _, _, _, _, _, _, _, _, _ => []

/-- `pd.to_datetime` applied to a column already carrying timestamps is the
identity (src/components/data.py re-coerces the period column on load). -/
def to_datetime (d : Date) : Date := d

/-- `load_processed_data` (src/components/data.py): read the snapshot back
and re-coerce `TIME_PERIOD` to datetimes. -/
def load_processed_data (s : Snapshot) : List CleanRow :=
  (read_parquet s.col_REF_AREA s.col_REF_AREA_LABEL s.col_TIME_PERIOD
      s.col_OBS_VALUE s.col_region s.col_year s.col_month s.col_quarter
      s.col_year_month s.col_decade s.col_era).map
    fun r => { r with TIME_PERIOD := to_datetime r.TIME_PERIOD }

theorem read_to_parquet (df : List CleanRow) :
    read_parquet (df.map (·.REF_AREA)) (df.map (·.REF_AREA_LABEL))
      (df.map (·.TIME_PERIOD)) (df.map (·.OBS_VALUE)) (df.map (·.region))
      (df.map (·.year)) (df.map (·.month)) (df.map (·.quarter))
      (df.map (·.year_month)) (df.map (·.decade)) (df.map (·.era)) = df := by
  induction df with
  | nil => rfl
  | cons r rs ih =>
      simp only [List.map_cons, read_parquet, ih]

/-- C9: writing the enriched table to the columnar snapshot and loading it
back reproduces the table exactly — same rows (hence same row count and
values), with the period column persisted and returned as timestamps. -/
theorem parquet_round_trip (df : List CleanRow) :
    load_processed_data (to_parquet df) = df ∧
    (load_processed_data (to_parquet df)).length = df.length ∧
    (to_parquet df).col_TIME_PERIOD = df.map (·.TIME_PERIOD) := by
  have h : load_processed_data (to_parquet df) = df := by
    unfold load_processed_data to_parquet
    rw [read_to_parquet df]
    unfold to_datetime
    have : ∀ r : CleanRow, ({ r with TIME_PERIOD := r.TIME_PERIOD } : CleanRow) = r :=
      fun r => rfl
    simp [this]
  exact ⟨h, by rw [h], rfl⟩

/-- Witness for C1's totality at the first month of the range (1990-01):
exactly one era interval contains it. -/
theorem era_classification_total_witness :
    (List.range 5).countP (fun i => inEraInterval i (monthDate 0)) = 1 :=
  (era_classification_total_and_boundaries.1 0 (by decide)).1
